import Mathlib

/-! GraphQL-CRUD: clients and projects

A shallow embedding of `server/schemas/schema.js` and `server/models/Projects.js`.

The document store is explicit state: two collections (lists of documents in
insertion order) together with the counter that stands for the driver's
`ObjectId` generator.  A stored `_id` is an opaque handle, modelled as a natural
number; an id argument of a request is a string, which the model layer casts to
such a handle or fails to cast.  A resolver takes the state before the call and
returns the state after it together with its outcome: `Except.ok` for a returned
value, `Except.error` carrying the message of the thrown `Error`.  What the store
does to the calls of one request is an input of the resolver: each store call is
either served or throws the store's error (for instance when the store cannot be
reached) and then leaves the store as it was.  Resolvers run one at a time.
-/

namespace GraphQLCrud

/-- Store handle of a document (`_id`, an `ObjectId`). -/
abbrev Id := Nat

/-- An argument of type `GraphQLID` as a resolver receives it. The gateway accepts any
string: it is either the text of an `ObjectId`, or some other text, which is not. -/
inductive GraphQLID where
  | objectId (id : Id)
  | other (raw : String)
deriving DecidableEq, Repr

/-- A document of the `clients` collection (`ClientType`: id, name, email, phone). -/
structure Client where
  id : Id
  name : String
  email : String
  phone : String
deriving DecidableEq, Repr

/-- A document of the `projects` collection (`ProjectSchema`, `Projects.js` lines 3-19).
The status is `none` when the path holds null. -/
structure Project where
  id : Id
  name : String
  description : String
  status : Option String
  clientId : Id
deriving DecidableEq, Repr

/-- The two persisted collections. -/
structure Store where
  clients : List Client
  projects : List Project
deriving DecidableEq, Repr

/-- The world a resolver runs in: the store and the next `ObjectId` the driver hands out. -/
structure State where
  store : Store
  nextId : Nat
deriving DecidableEq, Repr

/-- The store before any mutation. -/
def State.empty : State := ⟨⟨[], []⟩, 0⟩

deriving instance DecidableEq for Except

/-- Outcome of a resolver: the state after it and what it returned or threw. -/
abbrev Outcome (α : Type) := State × Except String α

/-- What the store does to the calls of one request: for the call number `k` (counted
from 0 in the order the resolver makes them), the message of the error the call throws,
or `none` when the call is served. -/
abbrev Faults := Nat → Option String

/-- The store serves every call. -/
def noFaults : Faults := fun _ => none

/-- The store serves every call but call number `k`, which throws `message`. -/
def failAt (k : Nat) (message : String) : Faults :=
  fun i => if i = k then some message else none

/-- The schema of the `Client` model, `models/Client.js`, which is not among the sources:
what it accepts when a client is saved. The resolvers are modelled for every such schema. -/
structure ClientSchema where
  accepts : String → String → String → Bool

/-- Modelled from the spec: `models/Client.js` is not among the sources. Section 4.2 says of
`addClient` that name, email and phone are all three required, non-empty strings, and that
the call fails with a descriptive error when persistence fails on a constraint violation:
the schema rejects a client in which one of the three is the empty string. -/
def ClientSchema.required : ClientSchema :=
  ⟨fun name email phone => name != "" && email != "" && phone != ""⟩

/-! ## Schema constants -/

/-- The values of `ProjectStatusEnum` (`schema.js` lines 76-83). -/
inductive ProjectStatusEnum where
  | NOT_STARTED
  | IN_PROGRESS
  | COMPLETED
deriving DecidableEq, Repr

/-- Internal value of each enum name (`schema.js` lines 79-81). -/
def ProjectStatusEnum.value : ProjectStatusEnum → String
  | .NOT_STARTED => "Not Started"
  | .IN_PROGRESS => "In Progress"
  | .COMPLETED => "Done"

/-- The `enum` list of `ProjectSchema.status` (`Projects.js` line 13). -/
def ProjectSchema.statusEnum : List String := ["Not Started", "In Progress", "Done"]

/-- The `defaultValue` of the `status` argument of `addProject` (`schema.js` line 144). -/
def addProjectStatusDefault : String := "Not Started"

/-- Message of the store's duplicate-key error raised by the unique index on `name`. -/
def duplicateKeyMessage : String := "E11000 duplicate key error"

/-- Message of the model's validation error for a `status` outside the `enum` list. -/
def enumValidationMessage : String := "Project validation failed: status is not a valid enum value"

/-- Message of the model's validation error for a client the schema rejects. -/
def clientValidationMessage : String := "Client validation failed"

/-- Message of the gateway's error for a `GraphQLNonNull` argument that is absent. -/
def requiredArgumentMessage : String := "Argument of required type was not provided"

/-- Message of the model's error for a value that is not the text of an `ObjectId`. -/
def castErrorMessage (raw path model : String) : String :=
  "Cast to ObjectId failed for value \x22" ++ raw ++ "\x22 (type string) at path \x22" ++ path ++
    "\x22 for model \x22" ++ model ++ "\x22"

/-! ## Model operations (the calls the resolvers make on `Client` and `Project`) -/

/-- The cast the model applies to an id before it queries the store: the handle for the
text of an `ObjectId`, a thrown cast error for any other text. -/
def castObjectId (path model : String) : GraphQLID → Except String Id
  | .objectId id => .ok id
  | .other raw => .error (castErrorMessage raw path model)

/-- JavaScript truthiness of a string: only the empty string is falsy. -/
def truthy (v : String) : Bool := v != ""

/-- The expression `arg || stored` for an optional string argument and a stored string: the
argument when it is present and truthy, the stored value otherwise. -/
def orElse (arg : Option String) (stored : String) : String :=
  match arg with
  | some v => if truthy v then v else stored
  | none => stored

/-- The expression `arg || stored` when the stored value may be null. -/
def orElseNull (arg : Option String) (stored : Option String) : Option String :=
  match arg with
  | some v => if truthy v then some v else stored
  | none => stored

/-- Replaces the first document with the given id by its image under `f`. -/
def updateFirst (id : Id) (f : Project → Project) : List Project → List Project
  | [] => []
  | p :: ps => if p.id == id then f p :: ps else p :: updateFirst id f ps

/-- The call `Client.findById(id)`: a cast error for an id that is no `ObjectId`, the store's
error when the call fails, the client with that id or null otherwise. -/
def Client.findById (s : State) (fault : Option String) (id : GraphQLID) :
    Except String (Option Client) :=
  match castObjectId "_id" "Client" id with
  | .error message => .error message
  | .ok oid =>
    match fault with
    | some message => .error message
    | none => .ok (s.store.clients.find? (fun c => c.id == oid))

/-- The call `Client.find()`. -/
def Client.find (s : State) (fault : Option String) : Except String (List Client) :=
  match fault with
  | some message => .error message
  | none => .ok s.store.clients

/-- The call `Project.findById(id)`. -/
def Project.findById (s : State) (fault : Option String) (id : GraphQLID) :
    Except String (Option Project) :=
  match castObjectId "_id" "Project" id with
  | .error message => .error message
  | .ok oid =>
    match fault with
    | some message => .error message
    | none => .ok (s.store.projects.find? (fun p => p.id == oid))

/-- The call `Project.find()`. -/
def Project.find (s : State) (fault : Option String) : Except String (List Project) :=
  match fault with
  | some message => .error message
  | none => .ok s.store.projects

/-- Validation of `ProjectSchema` on save: a `status` that is set has to be in the `enum`
list (`Projects.js` lines 11-14); the path is not required, so null is not checked against
the list (the behaviour of mongoose from version 8 on; earlier versions reject null for an
`enum` path); the other paths carry no validator. -/
def ProjectSchema.validate (p : Project) : Bool :=
  match p.status with
  | none => true
  | some v => ProjectSchema.statusEnum.contains v

/-- The constructor `new Client(fields)`: the document gets a fresh `_id` from the generator. -/
def Client.new (s : State) (name email phone : String) : State × Client :=
  ({ s with nextId := s.nextId + 1 }, ⟨s.nextId, name, email, phone⟩)

/-- The constructor `new Project(fields)`: the document gets a fresh `_id` from the
generator and `clientId` is cast to an `ObjectId`. A `clientId` that cannot be cast makes the
document invalid; the error is reported here, at once, instead of by the `save()` that follows
the constructor in the same `try` block. -/
def Project.new (s : State) (name description : String) (status : Option String)
    (clientId : GraphQLID) : State × Except String Project :=
  match castObjectId "clientId" "Project" clientId with
  | .error message => ({ s with nextId := s.nextId + 1 }, .error message)
  | .ok oid => ({ s with nextId := s.nextId + 1 }, .ok ⟨s.nextId, name, description, status, oid⟩)

/-- The call `client.save()`: validates against the schema, then inserts. -/
def Client.save (schema : ClientSchema) (s : State) (fault : Option String) (c : Client) :
    Outcome Client :=
  if schema.accepts c.name c.email c.phone then
    match fault with
    | some message => (s, .error message)
    | none => ({ s with store := { s.store with clients := s.store.clients ++ [c] } }, .ok c)
  else (s, .error clientValidationMessage)

/-- The call `project.save()`: validates, then inserts unless the unique index on `name`
(`Projects.js` lines 4-7) already holds the name. -/
def Project.save (s : State) (fault : Option String) (p : Project) : Outcome Project :=
  if ProjectSchema.validate p then
    match fault with
    | some message => (s, .error message)
    | none =>
      if s.store.projects.any (fun q => q.name == p.name) then (s, .error duplicateKeyMessage)
      else ({ s with store := { s.store with projects := s.store.projects ++ [p] } }, .ok p)
  else (s, .error enumValidationMessage)

/-- The call `Project.deleteMany` filtered on `clientId`: removes every project referencing
the client. -/
def Project.deleteMany (s : State) (fault : Option String) (clientId : GraphQLID) :
    Outcome Unit :=
  match castObjectId "clientId" "Project" clientId with
  | .error message => (s, .error message)
  | .ok oid =>
    match fault with
    | some message => (s, .error message)
    | none =>
      ({ s with store := { s.store with
          projects := s.store.projects.filter (fun p => p.clientId != oid) } }, .ok ())

/-- The call `Client.findByIdAndDelete(id)`: removes the document with that id, if any, and
returns it. -/
def Client.findByIdAndDelete (s : State) (fault : Option String) (id : GraphQLID) :
    Outcome (Option Client) :=
  match castObjectId "_id" "Client" id with
  | .error message => (s, .error message)
  | .ok oid =>
    match fault with
    | some message => (s, .error message)
    | none =>
      ({ s with store := { s.store with
          clients := s.store.clients.eraseP (fun c => c.id == oid) } },
        .ok (s.store.clients.find? (fun c => c.id == oid)))

/-- The call `Project.findByIdAndDelete(id)`: removes the document with that id, if any,
and returns it. -/
def Project.findByIdAndDelete (s : State) (fault : Option String) (id : GraphQLID) :
    Outcome (Option Project) :=
  match castObjectId "_id" "Project" id with
  | .error message => (s, .error message)
  | .ok oid =>
    match fault with
    | some message => (s, .error message)
    | none =>
      ({ s with store := { s.store with
          projects := s.store.projects.eraseP (fun p => p.id == oid) } },
        .ok (s.store.projects.find? (fun p => p.id == oid)))

/-- The update `$set` of name, description and status applied to a stored project. -/
def setFields (name description : String) (status : Option String) (q : Project) : Project :=
  { q with name := name, description := description, status := status }

/-- The call `Project.findByIdAndUpdate` with `$set` on name, description and status and
`new: true`: sets the three paths on the document with that id and returns the document as
stored after the update; the unique index rejects a name held by another document. Update
validators are off by default, so the `enum` list is not consulted. -/
def Project.findByIdAndUpdate (s : State) (fault : Option String) (id : GraphQLID)
    (name description : String) (status : Option String) : Outcome (Option Project) :=
  match castObjectId "_id" "Project" id with
  | .error message => (s, .error message)
  | .ok oid =>
    match fault with
    | some message => (s, .error message)
    | none =>
      match s.store.projects.find? (fun p => p.id == oid) with
      | none => (s, .ok none)
      | some p =>
        if s.store.projects.any (fun q => q.id != oid && q.name == name) then
          (s, .error duplicateKeyMessage)
        else
          ({ s with store := { s.store with
              projects := updateFirst oid (setFields name description status)
                s.store.projects } },
            .ok (some (setFields name description status p)))

/-! ## Query resolvers (`schema.js` lines 33-73) -/

/-- Resolver `ProjectType.client.resolve` (lines 36-38). -/
def ProjectType.client (s : State) (fault : Option String) (project : Project) :
    Except String (Option Client) :=
  Client.findById s fault (.objectId project.clientId)

/-- Resolver `RootQuery.client.resolve` (lines 49-51). -/
def RootQuery.client (s : State) (fault : Option String) (id : GraphQLID) :
    Except String (Option Client) :=
  Client.findById s fault id

/-- Resolver `RootQuery.clients.resolve` (lines 55-57). -/
def RootQuery.clients (s : State) (fault : Option String) : Except String (List Client) :=
  Client.find s fault

/-- Resolver `RootQuery.project.resolve` (lines 62-64). -/
def RootQuery.project (s : State) (fault : Option String) (id : GraphQLID) :
    Except String (Option Project) :=
  Project.findById s fault id

/-- Resolver `RootQuery.projects.resolve` (lines 68-70). -/
def RootQuery.projects (s : State) (fault : Option String) : Except String (List Project) :=
  Project.find s fault

/-! ## Mutation resolvers (`schema.js` lines 87-221) -/

/-- The `catch (error)` clause of a mutation resolver: whatever the body threw is thrown
again as one `Error` whose message is the operation's text followed by `error.message`. -/
def rethrow {α : Type} (operation : String) (r : Outcome α) : Outcome α :=
  match r with
  | (s, .ok a) => (s, .ok a)
  | (s, .error message) => (s, .error (operation ++ message))

/-- Body of the `try` block of `addClient` (lines 100-105). -/
def Mutation.addClient.body (schema : ClientSchema) (s : State) (faults : Faults)
    (name email phone : String) : Outcome Client :=
  let (s1, client) := Client.new s name email phone
  Client.save schema s1 (faults 0) client

/-- Resolver `mutation.addClient.resolve` (lines 98-109). -/
def Mutation.addClient.resolve (schema : ClientSchema) (s : State) (faults : Faults)
    (name email phone : String) : Outcome Client :=
  rethrow "Failed to add client: " (Mutation.addClient.body schema s faults name email phone)

/-- Body of the `try` block of `deleteClient` (lines 120-129). -/
def Mutation.deleteClient.body (s : State) (faults : Faults) (id : GraphQLID) :
    Outcome (Option Client) :=
  match Client.findById s (faults 0) id with
  | .error message => (s, .error message)
  | .ok none => (s, .error "Client not found")
  | .ok (some _) =>
    match Project.deleteMany s (faults 1) id with
    | (s1, .error message) => (s1, .error message)
    | (s1, .ok _) => Client.findByIdAndDelete s1 (faults 2) id

/-- Resolver `mutation.deleteClient.resolve` (lines 118-133). -/
def Mutation.deleteClient.resolve (s : State) (faults : Faults) (id : GraphQLID) :
    Outcome (Option Client) :=
  rethrow "Failed to delete client: " (Mutation.deleteClient.body s faults id)

/-- Body of the `try` block of `addProject` (lines 151-162); `status` is `args.status`
after the gateway's coercion, `none` when it is null. -/
def Mutation.addProject.body (s : State) (faults : Faults) (name description : String)
    (status : Option String) (clientId : GraphQLID) : Outcome Project :=
  match Client.findById s (faults 0) clientId with
  | .error message => (s, .error message)
  | .ok none => (s, .error "Client not found")
  | .ok (some _) =>
    match Project.new s name description status clientId with
    | (s1, .error message) => (s1, .error message)
    | (s1, .ok project) => Project.save s1 (faults 1) project

/-- Resolver `mutation.addProject.resolve` (lines 148-166). -/
def Mutation.addProject.resolve (s : State) (faults : Faults) (name description : String)
    (status : Option String) (clientId : GraphQLID) : Outcome Project :=
  rethrow "Failed to add project: "
    (Mutation.addProject.body s faults name description status clientId)

/-- Body of the `try` block of `deleteProject` (lines 177-181). -/
def Mutation.deleteProject.body (s : State) (faults : Faults) (id : GraphQLID) :
    Outcome (Option Project) :=
  match Project.findById s (faults 0) id with
  | .error message => (s, .error message)
  | .ok none => (s, .error "Project not found")
  | .ok (some _) => Project.findByIdAndDelete s (faults 1) id

/-- Resolver `mutation.deleteProject.resolve` (lines 175-185). -/
def Mutation.deleteProject.resolve (s : State) (faults : Faults) (id : GraphQLID) :
    Outcome (Option Project) :=
  rethrow "Failed to delete project: " (Mutation.deleteProject.body s faults id)

/-- Body of the `try` block of `updateProject` (lines 199-214); an argument is `none` when
it is left out or null. -/
def Mutation.updateProject.body (s : State) (faults : Faults) (id : GraphQLID)
    (name description status : Option String) : Outcome (Option Project) :=
  match Project.findById s (faults 0) id with
  | .error message => (s, .error message)
  | .ok none => (s, .error "Project not found")
  | .ok (some project) =>
    Project.findByIdAndUpdate s (faults 1) id (orElse name project.name)
      (orElse description project.description) (orElseNull status project.status)

/-- Resolver `mutation.updateProject.resolve` (lines 197-218). -/
def Mutation.updateProject.resolve (s : State) (faults : Faults) (id : GraphQLID)
    (name description status : Option String) : Outcome (Option Project) :=
  rethrow "Failed to update project: "
    (Mutation.updateProject.body s faults id name description status)

/-! ## Mutation fields: argument coercion by the gateway, then the resolver

A `GraphQLNonNull` argument is `none` when the request leaves it out or passes null; the
gateway then rejects the request before the resolver runs. -/

/-- Field `addClient` (lines 91-110): all three arguments are `GraphQLNonNull`. -/
def Mutation.addClient (schema : ClientSchema) (s : State) (faults : Faults)
    (name email phone : Option String) : Outcome Client :=
  match name, email, phone with
  | some n, some e, some p => Mutation.addClient.resolve schema s faults n e p
  | _, _, _ => (s, .error requiredArgumentMessage)

/-- Field `deleteClient` (lines 113-134). -/
def Mutation.deleteClient (s : State) (faults : Faults) (id : Option GraphQLID) :
    Outcome (Option Client) :=
  match id with
  | some i => Mutation.deleteClient.resolve s faults i
  | none => (s, .error requiredArgumentMessage)

/-- The value of `args.status` in `addProject` (lines 142-145). The argument is nullable and
has a `defaultValue`: a request that leaves it out (`none`) gets the default, a request that
passes null (`some none`) gets null, a request that passes an enum name gets the internal
value of the name. -/
def addProjectStatus (status : Option (Option ProjectStatusEnum)) : Option String :=
  match status with
  | none => some addProjectStatusDefault
  | some none => none
  | some (some e) => some e.value

/-- Field `addProject` (lines 137-167): `status` is a nullable `ProjectStatusEnum`
with `defaultValue` "Not Started"; the other arguments are `GraphQLNonNull`. -/
def Mutation.addProject (s : State) (faults : Faults) (name description : Option String)
    (status : Option (Option ProjectStatusEnum)) (clientId : Option GraphQLID) :
    Outcome Project :=
  match name, description, clientId with
  | some n, some d, some c =>
    Mutation.addProject.resolve s faults n d (addProjectStatus status) c
  | _, _, _ => (s, .error requiredArgumentMessage)

/-- Field `deleteProject` (lines 170-186). -/
def Mutation.deleteProject (s : State) (faults : Faults) (id : Option GraphQLID) :
    Outcome (Option Project) :=
  match id with
  | some i => Mutation.deleteProject.resolve s faults i
  | none => (s, .error requiredArgumentMessage)

/-- Field `updateProject` (lines 189-219): only `id` is `GraphQLNonNull`; each of the other
arguments is `none` when the request leaves it out or passes null, which the resolver
treats alike. -/
def Mutation.updateProject (s : State) (faults : Faults) (id : Option GraphQLID)
    (name description : Option String) (status : Option ProjectStatusEnum) :
    Outcome (Option Project) :=
  match id with
  | some i => Mutation.updateProject.resolve s faults i name description (status.map ProjectStatusEnum.value)
  | none => (s, .error requiredArgumentMessage)

/-! ## Sequences of mutations -/

/-- One mutation request as it reaches the gateway. -/
inductive Request where
  | addClient (name email phone : Option String)
  | deleteClient (id : Option GraphQLID)
  | addProject (name description : Option String) (status : Option (Option ProjectStatusEnum))
      (clientId : Option GraphQLID)
  | deleteProject (id : Option GraphQLID)
  | updateProject (id : Option GraphQLID) (name description : Option String)
      (status : Option ProjectStatusEnum)

/-- State after serving one request, given what the store does to its calls. -/
def Request.exec (schema : ClientSchema) (s : State) (faults : Faults) : Request → State
  | .addClient n e p => (Mutation.addClient schema s faults n e p).1
  | .deleteClient i => (Mutation.deleteClient s faults i).1
  | .addProject n d st c => (Mutation.addProject s faults n d st c).1
  | .deleteProject i => (Mutation.deleteProject s faults i).1
  | .updateProject i n d st => (Mutation.updateProject s faults i n d st).1

/-- State after serving the requests one after the other; each request comes with what the
store does to its calls. -/
def run (schema : ClientSchema) (s : State) (rs : List (Request × Faults)) : State :=
  rs.foldl (fun t r => Request.exec schema t r.2 r.1) s

/-- A request during which the store serves every call. -/
def served (r : Request) : Request × Faults := (r, noFaults)

/-- A state the mutations can produce from the empty store, whatever the client schema
accepts and whichever store calls fail on the way. -/
def Reachable (s : State) : Prop :=
  ∃ (schema : ClientSchema) (rs : List (Request × Faults)), run schema State.empty rs = s

/-- What the store guarantees of itself: `_id` is unique within a collection and the
generator has not yet handed out an id that is in use. -/
def State.WF (s : State) : Prop :=
  (s.store.clients.map (·.id)).Nodup ∧ (s.store.projects.map (·.id)).Nodup ∧
  (∀ c ∈ s.store.clients, c.id < s.nextId) ∧ (∀ p ∈ s.store.projects, p.id < s.nextId)

instance (s : State) : Decidable s.WF := by
  unfold State.WF; infer_instance

/-- No two stored projects share a name. -/
def UniqueNames (s : State) : Prop := (s.store.projects.map (·.name)).Nodup

instance (s : State) : Decidable (UniqueNames s) := by
  unfold UniqueNames; infer_instance

/-- Every stored project references a stored client. -/
def RefIntegrity (s : State) : Prop :=
  ∀ p ∈ s.store.projects, ∃ c ∈ s.store.clients, c.id = p.clientId

/-- The three properties every reachable state has. -/
def Inv (s : State) : Prop := s.WF ∧ UniqueNames s ∧ RefIntegrity s

/-- The example of the spec: one client "Acme" that owns the project "Site Redesign". -/
def acme : State :=
  run ClientSchema.required State.empty
    [served (.addClient (some "Acme") (some "a@x.com") (some "555-1")),
     served (.addProject (some "Site Redesign") (some "desc") none (some (.objectId 0)))]

/-- A store in which the project "Orphan" references client 5, which is not stored. -/
def orphaned : State := ⟨⟨[], [⟨0, "Orphan", "desc", some "Done", 5⟩]⟩, 1⟩

/-- A store with one client and the two projects "Site Redesign" and "Shop". -/
def twoProjects : State :=
  run ClientSchema.required acme
    [served (.addProject (some "Shop") (some "web shop") (some (some .IN_PROGRESS))
      (some (.objectId 0)))]

/-- The state after a client with two projects was deleted and another client with one
project remains; one store call failed on the way. -/
def afterCascade : State :=
  run ClientSchema.required State.empty
    [served (.addClient (some "Acme") (some "a@x.com") (some "555-1")),
     served (.addClient (some "Bolt") (some "b@x.com") (some "555-2")),
     served (.addProject (some "Site Redesign") (some "desc") none (some (.objectId 0))),
     served (.addProject (some "Shop") (some "web shop") (some (some .COMPLETED))
       (some (.objectId 1))),
     served (.addProject (some "App") (some "mobile") (some none) (some (.objectId 0))),
     served (.updateProject (some (.objectId 3)) (some "Store") none none),
     (.deleteClient (some (.objectId 0)), failAt 2 "store unreachable"),
     served (.deleteClient (some (.objectId 0)))]

/-! ## Lists of documents keyed by id -/

theorem find?_key_some {α : Type} (key : α → Id) {l : List α} {id : Id} {a : α}
    (h : l.find? (fun x => key x == id) = some a) : a ∈ l ∧ key a = id := by
  refine ⟨List.mem_of_find?_eq_some h, ?_⟩
  have := List.find?_some h
  simpa using this

theorem find?_key_none {α : Type} {key : α → Id} {l : List α} {id : Id} :
    l.find? (fun x => key x == id) = none ↔ ∀ x ∈ l, key x ≠ id := by
  simp [List.find?_eq_none]

theorem find?_key_of_mem {α : Type} (key : α → Id) :
    ∀ (l : List α) (a : α), (l.map key).Nodup → a ∈ l →
      l.find? (fun x => key x == key a) = some a
  | [], a, _, h => by simp at h
  | b :: l, a, hnd, h => by
    rw [List.map_cons, List.nodup_cons] at hnd
    rcases List.mem_cons.mp h with rfl | h'
    · simp [List.find?_cons]
    · have hne : key b ≠ key a := fun hba => hnd.1 (List.mem_map.mpr ⟨a, h', hba.symm⟩)
      have ih := find?_key_of_mem key l a hnd.2 h'
      simp [List.find?_cons, hne, ih]

theorem key_ne_of_mem_eraseP {α : Type} (key : α → Id) (id : Id) :
    ∀ l : List α, (l.map key).Nodup → ∀ x ∈ l.eraseP (fun y => key y == id), key x ≠ id
  | [], _, x, hx => by simp at hx
  | a :: l, hnd, x, hx => by
    rw [List.map_cons, List.nodup_cons] at hnd
    by_cases ha : key a = id
    · have he : (a :: l).eraseP (fun y => key y == id) = l := by simp [List.eraseP_cons, ha]
      rw [he] at hx
      intro hxid
      exact hnd.1 (List.mem_map.mpr ⟨x, hx, by rw [hxid, ha]⟩)
    · have he : (a :: l).eraseP (fun y => key y == id) = a :: l.eraseP (fun y => key y == id) := by
        simp [List.eraseP_cons, ha]
      rw [he] at hx
      rcases List.mem_cons.mp hx with rfl | hx'
      · exact ha
      · exact key_ne_of_mem_eraseP key id l hnd.2 x hx'

theorem nodup_map_eraseP {α : Type} (key : α → Id) (q : α → Bool) (l : List α)
    (h : (l.map key).Nodup) : ((l.eraseP q).map key).Nodup :=
  List.Nodup.sublist ((List.eraseP_sublist l).map key) h

theorem nodup_map_filter {α : Type} (key : α → Id) (q : α → Bool) (l : List α)
    (h : (l.map key).Nodup) : ((l.filter q).map key).Nodup :=
  List.Nodup.sublist ((List.filter_sublist l).map key) h

theorem find?_append_fresh {α : Type} (key : α → Id) (l : List α) (a : α)
    (h : ∀ x ∈ l, key x ≠ key a) : (l ++ [a]).find? (fun x => key x == key a) = some a := by
  have hn : l.find? (fun x => key x == key a) = none := find?_key_none.mpr h
  simp [List.find?_append, hn]

/-! ## The first document with a given id, updated in place -/

theorem updateFirst_cons_eq {id : Id} {f : Project → Project} {p : Project} (ps : List Project)
    (h : p.id = id) : updateFirst id f (p :: ps) = f p :: ps := by
  simp [updateFirst, h]

theorem updateFirst_cons_ne {id : Id} {f : Project → Project} {p : Project} (ps : List Project)
    (h : p.id ≠ id) : updateFirst id f (p :: ps) = p :: updateFirst id f ps := by
  simp [updateFirst, h]

theorem map_id_updateFirst (id : Id) (f : Project → Project) (hf : ∀ p, (f p).id = p.id) :
    ∀ l : List Project, (updateFirst id f l).map (·.id) = l.map (·.id)
  | [] => rfl
  | p :: ps => by
    by_cases h : p.id = id
    · simp [updateFirst, h, hf]
    · simp [updateFirst, h, map_id_updateFirst id f hf ps]

theorem mem_updateFirst (id : Id) (f : Project → Project) :
    ∀ (l : List Project) (q : Project), q ∈ updateFirst id f l →
      q ∈ l ∨ ∃ p ∈ l, p.id = id ∧ q = f p
  | [], q, h => by simp [updateFirst] at h
  | p :: ps, q, h => by
    by_cases hp : p.id = id
    · rw [updateFirst_cons_eq ps hp, List.mem_cons] at h
      rcases h with rfl | h
      · exact Or.inr ⟨p, List.mem_cons_self _ _, hp, rfl⟩
      · exact Or.inl (List.mem_cons_of_mem _ h)
    · rw [updateFirst_cons_ne ps hp, List.mem_cons] at h
      rcases h with rfl | h
      · exact Or.inl (List.mem_cons_self _ _)
      · rcases mem_updateFirst id f ps q h with h1 | ⟨r, hr, hrid, hq⟩
        · exact Or.inl (List.mem_cons_of_mem _ h1)
        · exact Or.inr ⟨r, List.mem_cons_of_mem _ hr, hrid, hq⟩

theorem find?_updateFirst_self (id : Id) (f : Project → Project) (hf : ∀ p, (f p).id = p.id) :
    ∀ l : List Project, (updateFirst id f l).find? (fun p => p.id == id) =
      (l.find? (fun p => p.id == id)).map f
  | [] => rfl
  | p :: ps => by
    by_cases h : p.id = id
    · simp [updateFirst, h, hf, List.find?_cons]
    · simp [updateFirst, h, List.find?_cons, find?_updateFirst_self id f hf ps]

theorem nodup_name_updateFirst (id : Id) (f : Project → Project) (name : String)
    (hf : ∀ p, (f p).name = name) :
    ∀ l : List Project, (l.map (·.id)).Nodup → (l.map (·.name)).Nodup →
      (∀ q ∈ l, q.id ≠ id → q.name ≠ name) → ((updateFirst id f l).map (·.name)).Nodup
  | [], _, _, _ => by simp [updateFirst]
  | p :: ps, hid, hnm, hfree => by
    rw [List.map_cons, List.nodup_cons] at hid hnm
    by_cases h : p.id = id
    · rw [updateFirst_cons_eq ps h, List.map_cons, List.nodup_cons]
      refine ⟨?_, hnm.2⟩
      intro hmem
      obtain ⟨q, hq, hqn⟩ := List.mem_map.mp hmem
      have hqid : q.id ≠ id := fun e => hid.1 (List.mem_map.mpr ⟨q, hq, by rw [e, h]⟩)
      exact hfree q (List.mem_cons_of_mem _ hq) hqid (by rw [hqn, hf])
    · rw [updateFirst_cons_ne ps h, List.map_cons, List.nodup_cons]
      refine ⟨?_, nodup_name_updateFirst id f name hf ps hid.2 hnm.2
        (fun q hq => hfree q (List.mem_cons_of_mem _ hq))⟩
      intro hmem
      obtain ⟨q, hq, hqn⟩ := List.mem_map.mp hmem
      rcases mem_updateFirst id f ps q hq with h1 | ⟨r, _, _, hqr⟩
      · exact hnm.1 (List.mem_map.mpr ⟨q, h1, hqn⟩)
      · exact hfree p (List.mem_cons_self _ _) h (by rw [← hqn, hqr, hf])

theorem nodup_map_append_fresh {α : Type} (key : α → Id) (l : List α) (a : α)
    (h : (l.map key).Nodup) (hfresh : ∀ x ∈ l, key x ≠ key a) :
    ((l ++ [a]).map key).Nodup := by
  rw [List.map_append, List.map_singleton]
  refine List.Nodup.append h (List.nodup_singleton _) (List.disjoint_singleton.mpr ?_)
  intro hmem
  obtain ⟨x, hx, hxa⟩ := List.mem_map.mp hmem
  exact hfresh x hx hxa

theorem any_name_false {l : List Project} {n : String}
    (h : l.any (fun q => q.name == n) = false) : ∀ q ∈ l, q.name ≠ n := by
  intro q hq
  have := List.any_eq_false.mp h q hq
  simpa using this

theorem any_other_name_false {l : List Project} {id : Id} {n : String}
    (h : l.any (fun q => q.id != id && q.name == n) = false) :
    ∀ q ∈ l, q.id ≠ id → q.name ≠ n := by
  intro q hq hid
  have := List.any_eq_false.mp h q hq
  simpa [hid] using this


/-! ## What each mutation does when the store serves its calls -/

theorem value_mem_statusEnum (e : ProjectStatusEnum) :
    ProjectSchema.statusEnum.contains e.value = true := by
  cases e <;> decide

theorem addProjectStatus_valid (status : Option (Option ProjectStatusEnum)) (n d : String)
    (id c : Id) : ProjectSchema.validate ⟨id, n, d, addProjectStatus status, c⟩ = true := by
  rcases status with _ | _ | e
  · show ProjectSchema.statusEnum.contains addProjectStatusDefault = true
    decide
  · rfl
  · exact value_mem_statusEnum e

theorem addClient_eq (schema : ClientSchema) (s : State) {faults : Faults} {n e p : String}
    (hf : faults 0 = none) (hv : schema.accepts n e p = true) :
    Mutation.addClient schema s faults (some n) (some e) (some p) =
      (⟨⟨s.store.clients ++ [⟨s.nextId, n, e, p⟩], s.store.projects⟩, s.nextId + 1⟩,
        .ok ⟨s.nextId, n, e, p⟩) := by
  simp [Mutation.addClient, Mutation.addClient.resolve, Mutation.addClient.body, Client.new,
    Client.save, rethrow, hf, hv]

theorem addClient_rejected (schema : ClientSchema) (s : State) (faults : Faults)
    {n e p : String} (hv : schema.accepts n e p = false) :
    Mutation.addClient schema s faults (some n) (some e) (some p) =
      (⟨s.store, s.nextId + 1⟩,
        .error ("Failed to add client: " ++ clientValidationMessage)) := by
  simp [Mutation.addClient, Mutation.addClient.resolve, Mutation.addClient.body, Client.new,
    Client.save, rethrow, hv]

theorem addClient_fault (schema : ClientSchema) (s : State) {faults : Faults}
    {n e p m : String} (hf : faults 0 = some m) (hv : schema.accepts n e p = true) :
    Mutation.addClient schema s faults (some n) (some e) (some p) =
      (⟨s.store, s.nextId + 1⟩, .error ("Failed to add client: " ++ m)) := by
  simp [Mutation.addClient, Mutation.addClient.resolve, Mutation.addClient.body, Client.new,
    Client.save, rethrow, hf, hv]

theorem deleteClient_cast (s : State) (faults : Faults) (raw : String) :
    Mutation.deleteClient s faults (some (.other raw)) =
      (s, .error ("Failed to delete client: " ++ castErrorMessage raw "_id" "Client")) := by
  simp [Mutation.deleteClient, Mutation.deleteClient.resolve, Mutation.deleteClient.body,
    Client.findById, castObjectId, rethrow]

theorem deleteClient_fault0 (s : State) {faults : Faults} {id : Id} {m : String}
    (hf : faults 0 = some m) :
    Mutation.deleteClient s faults (some (.objectId id)) =
      (s, .error ("Failed to delete client: " ++ m)) := by
  simp [Mutation.deleteClient, Mutation.deleteClient.resolve, Mutation.deleteClient.body,
    Client.findById, castObjectId, rethrow, hf]

theorem deleteClient_missing {s : State} {faults : Faults} {id : Id} (hf : faults 0 = none)
    (h : s.store.clients.find? (fun c => c.id == id) = none) :
    Mutation.deleteClient s faults (some (.objectId id)) =
      (s, .error "Failed to delete client: Client not found") := by
  simp [Mutation.deleteClient, Mutation.deleteClient.resolve, Mutation.deleteClient.body,
    Client.findById, castObjectId, rethrow, hf, h]

theorem deleteClient_fault1 {s : State} {faults : Faults} {id : Id} {c : Client} {m : String}
    (hf : faults 0 = none) (h : s.store.clients.find? (fun c => c.id == id) = some c)
    (hf1 : faults 1 = some m) :
    Mutation.deleteClient s faults (some (.objectId id)) =
      (s, .error ("Failed to delete client: " ++ m)) := by
  simp [Mutation.deleteClient, Mutation.deleteClient.resolve, Mutation.deleteClient.body,
    Client.findById, castObjectId, rethrow, hf, h, hf1, Project.deleteMany]

theorem deleteClient_fault2 {s : State} {faults : Faults} {id : Id} {c : Client} {m : String}
    (hf : faults 0 = none) (h : s.store.clients.find? (fun c => c.id == id) = some c)
    (hf1 : faults 1 = none) (hf2 : faults 2 = some m) :
    Mutation.deleteClient s faults (some (.objectId id)) =
      (⟨⟨s.store.clients, s.store.projects.filter (fun p => p.clientId != id)⟩, s.nextId⟩,
        .error ("Failed to delete client: " ++ m)) := by
  simp [Mutation.deleteClient, Mutation.deleteClient.resolve, Mutation.deleteClient.body,
    Client.findById, castObjectId, rethrow, hf, h, hf1, hf2, Project.deleteMany,
    Client.findByIdAndDelete]

theorem deleteClient_found {s : State} {faults : Faults} {id : Id} {c : Client}
    (hf : faults 0 = none) (h : s.store.clients.find? (fun c => c.id == id) = some c)
    (hf1 : faults 1 = none) (hf2 : faults 2 = none) :
    Mutation.deleteClient s faults (some (.objectId id)) =
      (⟨⟨s.store.clients.eraseP (fun x => x.id == id),
          s.store.projects.filter (fun p => p.clientId != id)⟩, s.nextId⟩, .ok (some c)) := by
  simp [Mutation.deleteClient, Mutation.deleteClient.resolve, Mutation.deleteClient.body,
    Client.findById, castObjectId, rethrow, hf, h, hf1, hf2, Project.deleteMany,
    Client.findByIdAndDelete]

theorem addProject_cast (s : State) (faults : Faults) (n d : String)
    (st : Option (Option ProjectStatusEnum)) (raw : String) :
    Mutation.addProject s faults (some n) (some d) st (some (.other raw)) =
      (s, .error ("Failed to add project: " ++ castErrorMessage raw "_id" "Client")) := by
  simp [Mutation.addProject, Mutation.addProject.resolve, Mutation.addProject.body,
    Client.findById, castObjectId, rethrow]

theorem addProject_fault0 (s : State) {faults : Faults} (n d : String)
    (st : Option (Option ProjectStatusEnum)) (c : Id) {m : String} (hf : faults 0 = some m) :
    Mutation.addProject s faults (some n) (some d) st (some (.objectId c)) =
      (s, .error ("Failed to add project: " ++ m)) := by
  simp [Mutation.addProject, Mutation.addProject.resolve, Mutation.addProject.body,
    Client.findById, castObjectId, rethrow, hf]

theorem addProject_missing {s : State} {faults : Faults} {n d : String}
    {st : Option (Option ProjectStatusEnum)} {c : Id} (hf : faults 0 = none)
    (h : s.store.clients.find? (fun x => x.id == c) = none) :
    Mutation.addProject s faults (some n) (some d) st (some (.objectId c)) =
      (s, .error "Failed to add project: Client not found") := by
  simp [Mutation.addProject, Mutation.addProject.resolve, Mutation.addProject.body,
    Client.findById, castObjectId, rethrow, hf, h]

theorem addProject_fault1 {s : State} {faults : Faults} {n d : String}
    {st : Option (Option ProjectStatusEnum)} {c : Id} {cl : Client} {m : String}
    (hf : faults 0 = none) (h : s.store.clients.find? (fun x => x.id == c) = some cl)
    (hf1 : faults 1 = some m) :
    Mutation.addProject s faults (some n) (some d) st (some (.objectId c)) =
      (⟨s.store, s.nextId + 1⟩, .error ("Failed to add project: " ++ m)) := by
  simp [Mutation.addProject, Mutation.addProject.resolve, Mutation.addProject.body,
    Client.findById, castObjectId, rethrow, hf, h, hf1, Project.new, Project.save,
    addProjectStatus_valid]

theorem addProject_duplicate {s : State} {faults : Faults} {n d : String}
    {st : Option (Option ProjectStatusEnum)} {c : Id} {cl : Client}
    (hf : faults 0 = none) (h : s.store.clients.find? (fun x => x.id == c) = some cl)
    (hf1 : faults 1 = none) (hn : s.store.projects.any (fun q => q.name == n) = true) :
    Mutation.addProject s faults (some n) (some d) st (some (.objectId c)) =
      (⟨s.store, s.nextId + 1⟩, .error ("Failed to add project: " ++ duplicateKeyMessage)) := by
  simp only [Mutation.addProject, Mutation.addProject.resolve, Mutation.addProject.body,
    Client.findById, castObjectId, rethrow, hf, h, hf1, Project.new, Project.save,
    addProjectStatus_valid, hn, if_true]

theorem addProject_created {s : State} {faults : Faults} {n d : String}
    {st : Option (Option ProjectStatusEnum)} {c : Id} {cl : Client}
    (hf : faults 0 = none) (h : s.store.clients.find? (fun x => x.id == c) = some cl)
    (hf1 : faults 1 = none) (hn : s.store.projects.any (fun q => q.name == n) = false) :
    Mutation.addProject s faults (some n) (some d) st (some (.objectId c)) =
      (⟨⟨s.store.clients, s.store.projects ++ [⟨s.nextId, n, d, addProjectStatus st, c⟩]⟩,
          s.nextId + 1⟩, .ok ⟨s.nextId, n, d, addProjectStatus st, c⟩) := by
  simp only [Mutation.addProject, Mutation.addProject.resolve, Mutation.addProject.body,
    Client.findById, castObjectId, rethrow, hf, h, hf1, Project.new, Project.save,
    addProjectStatus_valid, hn, if_true, Bool.false_eq_true, if_false]

theorem deleteProject_cast (s : State) (faults : Faults) (raw : String) :
    Mutation.deleteProject s faults (some (.other raw)) =
      (s, .error ("Failed to delete project: " ++ castErrorMessage raw "_id" "Project")) := by
  simp [Mutation.deleteProject, Mutation.deleteProject.resolve, Mutation.deleteProject.body,
    Project.findById, castObjectId, rethrow]

theorem deleteProject_fault0 (s : State) {faults : Faults} {id : Id} {m : String}
    (hf : faults 0 = some m) :
    Mutation.deleteProject s faults (some (.objectId id)) =
      (s, .error ("Failed to delete project: " ++ m)) := by
  simp [Mutation.deleteProject, Mutation.deleteProject.resolve, Mutation.deleteProject.body,
    Project.findById, castObjectId, rethrow, hf]

theorem deleteProject_missing {s : State} {faults : Faults} {id : Id} (hf : faults 0 = none)
    (h : s.store.projects.find? (fun p => p.id == id) = none) :
    Mutation.deleteProject s faults (some (.objectId id)) =
      (s, .error "Failed to delete project: Project not found") := by
  simp [Mutation.deleteProject, Mutation.deleteProject.resolve, Mutation.deleteProject.body,
    Project.findById, castObjectId, rethrow, hf, h]

theorem deleteProject_fault1 {s : State} {faults : Faults} {id : Id} {p : Project} {m : String}
    (hf : faults 0 = none) (h : s.store.projects.find? (fun p => p.id == id) = some p)
    (hf1 : faults 1 = some m) :
    Mutation.deleteProject s faults (some (.objectId id)) =
      (s, .error ("Failed to delete project: " ++ m)) := by
  simp [Mutation.deleteProject, Mutation.deleteProject.resolve, Mutation.deleteProject.body,
    Project.findById, castObjectId, rethrow, hf, h, hf1, Project.findByIdAndDelete]

theorem deleteProject_found {s : State} {faults : Faults} {id : Id} {p : Project}
    (hf : faults 0 = none) (h : s.store.projects.find? (fun p => p.id == id) = some p)
    (hf1 : faults 1 = none) :
    Mutation.deleteProject s faults (some (.objectId id)) =
      (⟨⟨s.store.clients, s.store.projects.eraseP (fun x => x.id == id)⟩, s.nextId⟩,
        .ok (some p)) := by
  simp [Mutation.deleteProject, Mutation.deleteProject.resolve, Mutation.deleteProject.body,
    Project.findById, castObjectId, rethrow, hf, h, hf1, Project.findByIdAndDelete]

theorem updateProject_cast (s : State) (faults : Faults) (raw : String)
    (n d : Option String) (st : Option ProjectStatusEnum) :
    Mutation.updateProject s faults (some (.other raw)) n d st =
      (s, .error ("Failed to update project: " ++ castErrorMessage raw "_id" "Project")) := by
  simp [Mutation.updateProject, Mutation.updateProject.resolve, Mutation.updateProject.body,
    Project.findById, castObjectId, rethrow]

theorem updateProject_fault0 (s : State) {faults : Faults} {id : Id} {m : String}
    (n d : Option String) (st : Option ProjectStatusEnum) (hf : faults 0 = some m) :
    Mutation.updateProject s faults (some (.objectId id)) n d st =
      (s, .error ("Failed to update project: " ++ m)) := by
  simp [Mutation.updateProject, Mutation.updateProject.resolve, Mutation.updateProject.body,
    Project.findById, castObjectId, rethrow, hf]

theorem updateProject_missing {s : State} {faults : Faults} {id : Id} {n d : Option String}
    {st : Option ProjectStatusEnum} (hf : faults 0 = none)
    (h : s.store.projects.find? (fun p => p.id == id) = none) :
    Mutation.updateProject s faults (some (.objectId id)) n d st =
      (s, .error "Failed to update project: Project not found") := by
  simp [Mutation.updateProject, Mutation.updateProject.resolve, Mutation.updateProject.body,
    Project.findById, castObjectId, rethrow, hf, h]

theorem updateProject_fault1 {s : State} {faults : Faults} {id : Id} {n d : Option String}
    {st : Option ProjectStatusEnum} {p : Project} {m : String} (hf : faults 0 = none)
    (h : s.store.projects.find? (fun p => p.id == id) = some p) (hf1 : faults 1 = some m) :
    Mutation.updateProject s faults (some (.objectId id)) n d st =
      (s, .error ("Failed to update project: " ++ m)) := by
  simp [Mutation.updateProject, Mutation.updateProject.resolve, Mutation.updateProject.body,
    Project.findById, castObjectId, rethrow, hf, h, hf1, Project.findByIdAndUpdate]

theorem updateProject_duplicate {s : State} {faults : Faults} {id : Id} {n d : Option String}
    {st : Option ProjectStatusEnum} {p : Project} (hf : faults 0 = none)
    (h : s.store.projects.find? (fun p => p.id == id) = some p) (hf1 : faults 1 = none)
    (hn : s.store.projects.any (fun q => q.id != id && q.name == orElse n p.name) = true) :
    Mutation.updateProject s faults (some (.objectId id)) n d st =
      (s, .error ("Failed to update project: " ++ duplicateKeyMessage)) := by
  simp only [Mutation.updateProject, Mutation.updateProject.resolve,
    Mutation.updateProject.body, Project.findById, castObjectId, rethrow, hf, h, hf1,
    Project.findByIdAndUpdate, hn, if_true]

theorem updateProject_stored {s : State} {faults : Faults} {id : Id} {n d : Option String}
    {st : Option ProjectStatusEnum} {p : Project} (hf : faults 0 = none)
    (h : s.store.projects.find? (fun p => p.id == id) = some p) (hf1 : faults 1 = none)
    (hn : s.store.projects.any (fun q => q.id != id && q.name == orElse n p.name) = false) :
    Mutation.updateProject s faults (some (.objectId id)) n d st =
      (⟨⟨s.store.clients,
          updateFirst id (setFields (orElse n p.name) (orElse d p.description)
            (orElseNull (st.map ProjectStatusEnum.value) p.status)) s.store.projects⟩, s.nextId⟩,
        .ok (some (setFields (orElse n p.name) (orElse d p.description)
            (orElseNull (st.map ProjectStatusEnum.value) p.status) p))) := by
  simp only [Mutation.updateProject, Mutation.updateProject.resolve,
    Mutation.updateProject.body, Project.findById, castObjectId, rethrow, hf, h, hf1,
    Project.findByIdAndUpdate, hn, Bool.false_eq_true, if_false]


/-! ## Invariants of the store under the mutations -/

theorem inv_empty : Inv State.empty := by
  refine ⟨by decide, ?_, ?_⟩
  · simp [UniqueNames, State.empty]
  · intro p hp
    simp [State.empty] at hp

theorem inv_addClient {s : State} (n e p : String) (h : Inv s) :
    Inv ⟨⟨s.store.clients ++ [⟨s.nextId, n, e, p⟩], s.store.projects⟩, s.nextId + 1⟩ := by
  obtain ⟨⟨hc, hp, hcf, hpf⟩, hu, hr⟩ := h
  refine ⟨⟨?_, hp, ?_, ?_⟩, hu, ?_⟩
  · exact nodup_map_append_fresh (fun x : Client => x.id) _ _ hc
      (fun x hx => Nat.ne_of_lt (hcf x hx))
  · intro c hcm
    rcases List.mem_append.mp hcm with h1 | h1
    · exact Nat.lt_succ_of_lt (hcf c h1)
    · rw [List.mem_singleton] at h1
      subst h1
      exact Nat.lt_succ_self _
  · intro q hq
    exact Nat.lt_succ_of_lt (hpf q hq)
  · intro q hq
    obtain ⟨c, hcm, hcid⟩ := hr q hq
    exact ⟨c, List.mem_append_left _ hcm, hcid⟩

theorem inv_deleteMany {s : State} (id : Id) (h : Inv s) :
    Inv ⟨⟨s.store.clients, s.store.projects.filter (fun p => p.clientId != id)⟩, s.nextId⟩ := by
  obtain ⟨⟨hc, hp, hcf, hpf⟩, hu, hr⟩ := h
  refine ⟨⟨hc, nodup_map_filter _ _ _ hp, hcf, ?_⟩, ?_, ?_⟩
  · intro q hq
    exact hpf q (List.mem_filter.mp hq).1
  · exact List.Nodup.sublist ((List.filter_sublist s.store.projects).map _) hu
  · intro q hq
    exact hr q (List.mem_filter.mp hq).1

theorem inv_deleteClient {s : State} (id : Id) (h : Inv s) :
    Inv ⟨⟨s.store.clients.eraseP (fun x => x.id == id),
      s.store.projects.filter (fun p => p.clientId != id)⟩, s.nextId⟩ := by
  obtain ⟨⟨hc, hp, hcf, hpf⟩, hu, hr⟩ := h
  refine ⟨⟨nodup_map_eraseP _ _ _ hc, nodup_map_filter _ _ _ hp, ?_, ?_⟩, ?_, ?_⟩
  · intro c hcm
    exact hcf c (List.mem_of_mem_eraseP hcm)
  · intro q hq
    exact hpf q (List.mem_filter.mp hq).1
  · exact List.Nodup.sublist ((List.filter_sublist s.store.projects).map _) hu
  · intro q hq
    obtain ⟨hq1, hq2⟩ := List.mem_filter.mp hq
    obtain ⟨c, hcm, hcid⟩ := hr q hq1
    have hne : q.clientId ≠ id := by simpa using hq2
    refine ⟨c, (List.mem_eraseP_of_neg ?_).mpr hcm, hcid⟩
    simpa [hcid] using hne

theorem inv_newId {s : State} (h : Inv s) : Inv ⟨s.store, s.nextId + 1⟩ := by
  obtain ⟨⟨hc, hp, hcf, hpf⟩, hu, hr⟩ := h
  exact ⟨⟨hc, hp, fun c hcm => Nat.lt_succ_of_lt (hcf c hcm),
    fun q hq => Nat.lt_succ_of_lt (hpf q hq)⟩, hu, hr⟩

theorem inv_addProject {s : State} (n d : String) (st : Option String) (c : Id) (h : Inv s)
    (hcl : ∃ cl ∈ s.store.clients, cl.id = c) (hfree : ∀ q ∈ s.store.projects, q.name ≠ n) :
    Inv ⟨⟨s.store.clients, s.store.projects ++ [⟨s.nextId, n, d, st, c⟩]⟩, s.nextId + 1⟩ := by
  obtain ⟨⟨hc, hp, hcf, hpf⟩, hu, hr⟩ := h
  refine ⟨⟨hc, ?_, fun x hx => Nat.lt_succ_of_lt (hcf x hx), ?_⟩, ?_, ?_⟩
  · exact nodup_map_append_fresh (fun x : Project => x.id) _ _ hp
      (fun x hx => Nat.ne_of_lt (hpf x hx))
  · intro q hq
    rcases List.mem_append.mp hq with h1 | h1
    · exact Nat.lt_succ_of_lt (hpf q h1)
    · rw [List.mem_singleton] at h1
      subst h1
      exact Nat.lt_succ_self _
  · unfold UniqueNames at hu ⊢
    show ((s.store.projects ++ [(⟨s.nextId, n, d, st, c⟩ : Project)]).map
      (fun q : Project => q.name)).Nodup
    rw [List.map_append, List.map_singleton]
    refine List.Nodup.append hu (List.nodup_singleton _) (List.disjoint_singleton.mpr ?_)
    intro hmem
    obtain ⟨x, hx, hxn⟩ := List.mem_map.mp hmem
    exact hfree x hx hxn
  · intro q hq
    rcases List.mem_append.mp hq with h1 | h1
    · exact hr q h1
    · rw [List.mem_singleton] at h1
      subst h1
      exact hcl

theorem inv_deleteProject {s : State} (id : Id) (h : Inv s) :
    Inv ⟨⟨s.store.clients, s.store.projects.eraseP (fun x => x.id == id)⟩, s.nextId⟩ := by
  obtain ⟨⟨hc, hp, hcf, hpf⟩, hu, hr⟩ := h
  refine ⟨⟨hc, nodup_map_eraseP _ _ _ hp, hcf, ?_⟩, ?_, ?_⟩
  · intro q hq
    exact hpf q (List.mem_of_mem_eraseP hq)
  · exact List.Nodup.sublist ((List.eraseP_sublist s.store.projects).map _) hu
  · intro q hq
    exact hr q (List.mem_of_mem_eraseP hq)

theorem inv_updateProject {s : State} (id : Id) (n d : String) (st : Option String)
    (h : Inv s) (hfree : ∀ q ∈ s.store.projects, q.id ≠ id → q.name ≠ n) :
    Inv ⟨⟨s.store.clients, updateFirst id (setFields n d st) s.store.projects⟩, s.nextId⟩ := by
  obtain ⟨⟨hc, hp, hcf, hpf⟩, hu, hr⟩ := h
  have hid : ∀ q, (setFields n d st q).id = q.id := fun _ => rfl
  refine ⟨⟨hc, ?_, hcf, ?_⟩, ?_, ?_⟩
  · show ((updateFirst id (setFields n d st) s.store.projects).map (·.id)).Nodup
    rw [map_id_updateFirst id _ hid]
    exact hp
  · intro q hq
    rcases mem_updateFirst id _ _ q hq with h1 | ⟨r, hr1, _, hqr⟩
    · exact hpf q h1
    · rw [hqr]
      exact hpf r hr1
  · exact nodup_name_updateFirst id _ n (fun _ => rfl) _ hp hu hfree
  · intro q hq
    rcases mem_updateFirst id _ _ q hq with h1 | ⟨r, hr1, _, hqr⟩
    · exact hr q h1
    · rw [hqr]
      exact hr r hr1

theorem inv_exec (schema : ClientSchema) {s : State} (h : Inv s) (faults : Faults)
    (r : Request) : Inv (Request.exec schema s faults r) := by
  cases r with
  | addClient n e p =>
    cases n <;> cases e <;> cases p <;> try exact h
    rename_i n e p
    cases hv : schema.accepts n e p with
    | false => simp only [Request.exec, addClient_rejected schema s faults hv]; exact inv_newId h
    | true =>
      cases hf : faults 0 with
      | some m => simp only [Request.exec, addClient_fault schema s hf hv]; exact inv_newId h
      | none => simp only [Request.exec, addClient_eq schema s hf hv]; exact inv_addClient _ _ _ h
  | deleteClient i =>
    rcases i with _ | id | raw
    · exact h
    · cases hf : faults 0 with
      | some m => simp only [Request.exec, deleteClient_fault0 s hf]; exact h
      | none =>
        cases hc : s.store.clients.find? (fun c => c.id == id) with
        | none => simp only [Request.exec, deleteClient_missing hf hc]; exact h
        | some c =>
          cases hf1 : faults 1 with
          | some m => simp only [Request.exec, deleteClient_fault1 hf hc hf1]; exact h
          | none =>
            cases hf2 : faults 2 with
            | some m =>
              simp only [Request.exec, deleteClient_fault2 hf hc hf1 hf2]
              exact inv_deleteMany id h
            | none =>
              simp only [Request.exec, deleteClient_found hf hc hf1 hf2]
              exact inv_deleteClient id h
    · simp only [Request.exec, deleteClient_cast]; exact h
  | addProject n d st c =>
    cases n <;> cases d <;> cases c <;> try exact h
    rename_i n d c
    rcases c with c | raw
    · cases hf : faults 0 with
      | some m => simp only [Request.exec, addProject_fault0 s n d st c hf]; exact h
      | none =>
        cases hc : s.store.clients.find? (fun x => x.id == c) with
        | none => simp only [Request.exec, addProject_missing hf hc]; exact h
        | some cl =>
          cases hf1 : faults 1 with
          | some m => simp only [Request.exec, addProject_fault1 hf hc hf1]; exact inv_newId h
          | none =>
            cases hn : s.store.projects.any (fun q => q.name == n) with
            | true =>
              simp only [Request.exec, addProject_duplicate hf hc hf1 hn]
              exact inv_newId h
            | false =>
              simp only [Request.exec, addProject_created hf hc hf1 hn]
              obtain ⟨hm, hid⟩ := find?_key_some (fun x : Client => x.id) hc
              exact inv_addProject _ _ _ _ h ⟨cl, hm, hid⟩ (any_name_false hn)
    · simp only [Request.exec, addProject_cast]; exact h
  | deleteProject i =>
    rcases i with _ | id | raw
    · exact h
    · cases hf : faults 0 with
      | some m => simp only [Request.exec, deleteProject_fault0 s hf]; exact h
      | none =>
        cases hp : s.store.projects.find? (fun p => p.id == id) with
        | none => simp only [Request.exec, deleteProject_missing hf hp]; exact h
        | some p =>
          cases hf1 : faults 1 with
          | some m => simp only [Request.exec, deleteProject_fault1 hf hp hf1]; exact h
          | none =>
            simp only [Request.exec, deleteProject_found hf hp hf1]
            exact inv_deleteProject id h
    · simp only [Request.exec, deleteProject_cast]; exact h
  | updateProject i n d st =>
    rcases i with _ | id | raw
    · exact h
    · cases hf : faults 0 with
      | some m => simp only [Request.exec, updateProject_fault0 s n d st hf]; exact h
      | none =>
        cases hp : s.store.projects.find? (fun p => p.id == id) with
        | none => simp only [Request.exec, updateProject_missing hf hp]; exact h
        | some p =>
          cases hf1 : faults 1 with
          | some m => simp only [Request.exec, updateProject_fault1 hf hp hf1]; exact h
          | none =>
            cases hn : s.store.projects.any
                (fun q => q.id != id && q.name == orElse n p.name) with
            | true => simp only [Request.exec, updateProject_duplicate hf hp hf1 hn]; exact h
            | false =>
              simp only [Request.exec, updateProject_stored hf hp hf1 hn]
              exact inv_updateProject id _ _ _ h (any_other_name_false hn)
    · simp only [Request.exec, updateProject_cast]; exact h

theorem inv_run (schema : ClientSchema) (rs : List (Request × Faults)) :
    ∀ s : State, Inv s → Inv (run schema s rs) := by
  induction rs with
  | nil => intro s h; exact h
  | cons r rs ih => intro s h; exact ih _ (inv_exec schema h r.2 r.1)

theorem inv_of_reachable {s : State} (h : Reachable s) : Inv s := by
  obtain ⟨schema, rs, rfl⟩ := h
  exact inv_run schema rs _ inv_empty


/-! ## What a mutation that returns has done -/

theorem deleteClient_ok {s t : State} {faults : Faults} {id : Id} {r : Option Client}
    (h : Mutation.deleteClient s faults (some (.objectId id)) = (t, .ok r)) :
    ∃ c, s.store.clients.find? (fun x => x.id == id) = some c ∧ r = some c ∧
      t = ⟨⟨s.store.clients.eraseP (fun x => x.id == id),
        s.store.projects.filter (fun p => p.clientId != id)⟩, s.nextId⟩ := by
  cases hf : faults 0 with
  | some m => rw [deleteClient_fault0 s hf] at h; simp at h
  | none =>
    cases hc : s.store.clients.find? (fun c => c.id == id) with
    | none => rw [deleteClient_missing hf hc] at h; simp at h
    | some c =>
      cases hf1 : faults 1 with
      | some m => rw [deleteClient_fault1 hf hc hf1] at h; simp at h
      | none =>
        cases hf2 : faults 2 with
        | some m => rw [deleteClient_fault2 hf hc hf1 hf2] at h; simp at h
        | none =>
          rw [deleteClient_found hf hc hf1 hf2] at h
          simp only [Prod.mk.injEq, Except.ok.injEq] at h
          exact ⟨c, rfl, h.2.symm, h.1.symm⟩

theorem addProject_ok {s t : State} {faults : Faults} {n d : String}
    {st : Option (Option ProjectStatusEnum)} {c : GraphQLID} {p : Project}
    (h : Mutation.addProject s faults (some n) (some d) st (some c) = (t, .ok p)) :
    ∃ oid cl, c = .objectId oid ∧ s.store.clients.find? (fun x => x.id == oid) = some cl ∧
      (∀ q ∈ s.store.projects, q.name ≠ n) ∧
      p = ⟨s.nextId, n, d, addProjectStatus st, oid⟩ ∧
      t = ⟨⟨s.store.clients, s.store.projects ++ [p]⟩, s.nextId + 1⟩ := by
  rcases c with oid | raw
  · cases hf : faults 0 with
    | some m => rw [addProject_fault0 s n d st oid hf] at h; simp at h
    | none =>
      cases hc : s.store.clients.find? (fun x => x.id == oid) with
      | none => rw [addProject_missing hf hc] at h; simp at h
      | some cl =>
        cases hf1 : faults 1 with
        | some m => rw [addProject_fault1 hf hc hf1] at h; simp at h
        | none =>
          cases hn : s.store.projects.any (fun q => q.name == n) with
          | true => rw [addProject_duplicate hf hc hf1 hn] at h; simp at h
          | false =>
            rw [addProject_created hf hc hf1 hn] at h
            simp only [Prod.mk.injEq, Except.ok.injEq] at h
            obtain ⟨ht, hp⟩ := h
            subst hp
            exact ⟨oid, cl, rfl, hc, any_name_false hn, rfl, ht.symm⟩
  · rw [addProject_cast] at h; simp at h

theorem updateProject_ok {s t : State} {faults : Faults} {id : Id} {n d : Option String}
    {st : Option ProjectStatusEnum} {r : Option Project}
    (h : Mutation.updateProject s faults (some (.objectId id)) n d st = (t, .ok r)) :
    ∃ p, s.store.projects.find? (fun x => x.id == id) = some p ∧
      r = some (setFields (orElse n p.name) (orElse d p.description)
        (orElseNull (st.map ProjectStatusEnum.value) p.status) p) ∧
      t = ⟨⟨s.store.clients,
        updateFirst id (setFields (orElse n p.name) (orElse d p.description)
          (orElseNull (st.map ProjectStatusEnum.value) p.status)) s.store.projects⟩, s.nextId⟩ := by
  cases hf : faults 0 with
  | some m => rw [updateProject_fault0 s n d st hf] at h; simp at h
  | none =>
    cases hp : s.store.projects.find? (fun p => p.id == id) with
    | none => rw [updateProject_missing hf hp] at h; simp at h
    | some p =>
      cases hf1 : faults 1 with
      | some m => rw [updateProject_fault1 hf hp hf1] at h; simp at h
      | none =>
        cases hn : s.store.projects.any
            (fun q => q.id != id && q.name == orElse n p.name) with
        | true => rw [updateProject_duplicate hf hp hf1 hn] at h; simp at h
        | false =>
          rw [updateProject_stored hf hp hf1 hn] at h
          simp only [Prod.mk.injEq, Except.ok.injEq] at h
          exact ⟨p, rfl, h.2.symm, h.1.symm⟩

theorem client_query_objectId (s : State) (id : Id) :
    RootQuery.client s none (.objectId id) =
      .ok (s.store.clients.find? (fun c => c.id == id)) := rfl

theorem project_query_objectId (s : State) (id : Id) :
    RootQuery.project s none (.objectId id) =
      .ok (s.store.projects.find? (fun p => p.id == id)) := rfl

theorem client_query_some {s : State} {id : Id} {c : Client}
    (h : RootQuery.client s none (.objectId id) = .ok (some c)) :
    s.store.clients.find? (fun x => x.id == id) = some c := by
  rw [client_query_objectId] at h
  exact Except.ok.inj h

theorem project_query_some {s : State} {id : Id} {p : Project}
    (h : RootQuery.project s none (.objectId id) = .ok (some p)) :
    s.store.projects.find? (fun x => x.id == id) = some p := by
  rw [project_query_objectId] at h
  exact Except.ok.inj h

theorem client_query_unresolved {s : State} {id : Id}
    (h : ∀ c, RootQuery.client s none (.objectId id) ≠ .ok (some c)) :
    s.store.clients.find? (fun x => x.id == id) = none := by
  cases hc : s.store.clients.find? (fun x => x.id == id) with
  | none => rfl
  | some c => exact absurd (by rw [client_query_objectId, hc]) (h c)

theorem project_query_unresolved {s : State} {id : Id}
    (h : ∀ p, RootQuery.project s none (.objectId id) ≠ .ok (some p)) :
    s.store.projects.find? (fun x => x.id == id) = none := by
  cases hp : s.store.projects.find? (fun x => x.id == id) with
  | none => rfl
  | some p => exact absurd (by rw [project_query_objectId, hp]) (h p)

/-! ## Deleting a client -/

/-- C1: on a well-formed store, for an id a client has, `deleteClient(id)` succeeds when
the store serves its calls and returns that client; and whenever the call succeeds,
`projects` lists no project whose `clientId` is `id`, `client(id)` is null, and `project` is
null for the id of every project that referenced the client. In the example of the spec
(`addClient`, then `addProject` for that client, then `deleteClient`), `project` of the
project added is null. -/
theorem deleteClient_cascade (s : State) (id : Id) (c : Client) (hwf : s.WF)
    (hc : RootQuery.client s none (.objectId id) = .ok (some c)) :
    (Mutation.deleteClient s noFaults (some (.objectId id))).2 = .ok (some c) ∧
    ∀ faults t r, Mutation.deleteClient s faults (some (.objectId id)) = (t, .ok r) →
      r = some c ∧
      (∃ ps, RootQuery.projects t none = .ok ps ∧ ∀ p ∈ ps, p.clientId ≠ id) ∧
      RootQuery.client t none (.objectId id) = .ok none ∧
      (∀ ps, RootQuery.projects s none = .ok ps → ∀ p ∈ ps, p.clientId = id →
        RootQuery.project t none (.objectId p.id) = .ok none) := by
  have hc' := client_query_some hc
  constructor
  · rw [deleteClient_found (rfl : noFaults 0 = none) hc' rfl rfl]
  · intro faults t r hres
    obtain ⟨c', hfind, hr, ht⟩ := deleteClient_ok hres
    rw [hc'] at hfind
    have hcc : c = c' := Option.some.inj hfind
    subst hcc ht
    refine ⟨hr, ⟨_, rfl, ?_⟩, ?_, ?_⟩
    · intro p hp
      have := (List.mem_filter.mp hp).2
      simpa using this
    · rw [client_query_objectId]
      exact congrArg Except.ok
        (find?_key_none.mpr (key_ne_of_mem_eraseP (fun x : Client => x.id) id _ hwf.1))
    · intro ps hps p hp hpc
      have hps' : s.store.projects = ps := Except.ok.inj hps
      subst hps'
      rw [project_query_objectId]
      refine congrArg Except.ok (find?_key_none.mpr ?_)
      intro x hx hxp
      obtain ⟨hx1, hx2⟩ := List.mem_filter.mp hx
      have hxe : x = p := List.inj_on_of_nodup_map hwf.2.1 hx1 hp hxp
      subst hxe
      simp [hpc] at hx2

theorem deleteClient_cascade_witness :
    acme.WF ∧ RootQuery.client acme none (.objectId 0) =
        .ok (some ⟨0, "Acme", "a@x.com", "555-1"⟩) ∧
      RootQuery.project acme none (.objectId 1) =
        .ok (some ⟨1, "Site Redesign", "desc", some "Not Started", 0⟩) ∧
      Mutation.deleteClient acme noFaults (some (.objectId 0)) =
        (⟨⟨[], []⟩, 2⟩, .ok (some ⟨0, "Acme", "a@x.com", "555-1"⟩)) ∧
      (∃ ps, RootQuery.projects ⟨⟨[], []⟩, 2⟩ none = .ok ps ∧ ∀ p ∈ ps, p.clientId ≠ 0) ∧
      RootQuery.client ⟨⟨[], []⟩, 2⟩ none (.objectId 0) = .ok none ∧
      RootQuery.project ⟨⟨[], []⟩, 2⟩ none (.objectId 1) = .ok none :=
  have h := (deleteClient_cascade acme 0 ⟨0, "Acme", "a@x.com", "555-1"⟩ (by decide)
    (by decide)).2 noFaults ⟨⟨[], []⟩, 2⟩ (some ⟨0, "Acme", "a@x.com", "555-1"⟩) (by decide)
  ⟨by decide, by decide, by decide, by decide, h.2.1, h.2.2.1,
    h.2.2.2 [⟨1, "Site Redesign", "desc", some "Not Started", 0⟩] (by decide)
      ⟨1, "Site Redesign", "desc", some "Not Started", 0⟩ (by decide) rfl⟩

/-! ## Ids that resolve to nothing -/

/-- C2, as stated, fails: on the store of the example, `addProject` with the `clientId`
"abc", which resolves to no client, does not raise the not-found error; it raises the cast
error of the model under the text of the operation. -/
theorem addProject_malformed_client_id :
    RootQuery.client acme none (.other "abc") =
        .error (castErrorMessage "abc" "_id" "Client") ∧
      (Mutation.addProject acme noFaults (some "Shop") (some "web shop") none
          (some (.other "abc"))).2 =
        .error ("Failed to add project: Cast to ObjectId failed for value \x22abc\x22 " ++
          "(type string) at path \x22_id\x22 for model \x22Client\x22") ∧
      (Mutation.addProject acme noFaults (some "Shop") (some "web shop") none
          (some (.other "abc"))).2 ≠ .error "Failed to add project: Client not found" := by
  decide

/-- C2, amended: an `addProject` call whose `clientId` resolves to no stored client fails,
and the state after the call is the state before it: no project is persisted. The error is
the not-found error "Client not found" (raised under the text of the operation) when
`clientId` is the text of an `ObjectId` and the store answers the lookup, and the cast error
when `clientId` is any other string. -/
theorem addProject_unknown_client (s : State) (faults : Faults) (n d : String)
    (st : Option (Option ProjectStatusEnum)) (c : GraphQLID)
    (h : ∀ cl, RootQuery.client s none c ≠ .ok (some cl)) :
    (∃ msg, (Mutation.addProject s faults (some n) (some d) st (some c)).2 = .error msg) ∧
      (Mutation.addProject s faults (some n) (some d) st (some c)).1 = s ∧
      (∀ id, c = .objectId id → faults 0 = none →
        (Mutation.addProject s faults (some n) (some d) st (some c)).2 =
          .error "Failed to add project: Client not found") ∧
      (∀ raw, c = .other raw →
        (Mutation.addProject s faults (some n) (some d) st (some c)).2 =
          .error ("Failed to add project: " ++ castErrorMessage raw "_id" "Client")) := by
  rcases c with id | raw
  · have hnone := client_query_unresolved h
    cases hf : faults 0 with
    | some m =>
      rw [addProject_fault0 s n d st id hf]
      exact ⟨⟨_, rfl⟩, rfl, fun _ _ hf0 => by simp at hf0, fun _ hraw => by simp at hraw⟩
    | none =>
      rw [addProject_missing hf hnone]
      exact ⟨⟨_, rfl⟩, rfl, fun _ _ _ => rfl, fun _ hraw => by simp at hraw⟩
  · rw [addProject_cast]
    refine ⟨⟨_, rfl⟩, rfl, fun _ hid => by simp at hid, ?_⟩
    intro raw' hraw
    cases hraw
    rfl

theorem addProject_unknown_client_witness :
    (∀ cl, RootQuery.client acme none (.objectId 7) ≠ .ok (some cl)) ∧
      (Mutation.addProject acme noFaults (some "Shop") (some "desc") (some (some .IN_PROGRESS))
          (some (.objectId 7))).2 = .error "Failed to add project: Client not found" ∧
      (Mutation.addProject acme noFaults (some "Shop") (some "desc") (some (some .IN_PROGRESS))
          (some (.objectId 7))).1 = acme :=
  have hq : ∀ cl, RootQuery.client acme none (.objectId 7) ≠ .ok (some cl) :=
    fun cl hcl => by
      have : RootQuery.client acme none (.objectId 7) = .ok none := by decide
      rw [this] at hcl
      simp at hcl
  have h := addProject_unknown_client acme noFaults "Shop" "desc" (some (some .IN_PROGRESS))
    (.objectId 7) hq
  ⟨hq, h.2.2.1 7 rfl rfl, h.2.1⟩

/-- C3, as stated, fails: `deleteClient` and `deleteProject` with the id "abc", which no
client and no project has, do not raise the not-found error; they raise the cast error of
the model under the text of the operation. -/
theorem delete_malformed_id :
    RootQuery.client orphaned none (.other "abc") =
        .error (castErrorMessage "abc" "_id" "Client") ∧
      (Mutation.deleteClient orphaned noFaults (some (.other "abc"))).2 =
        .error ("Failed to delete client: Cast to ObjectId failed for value \x22abc\x22 " ++
          "(type string) at path \x22_id\x22 for model \x22Client\x22") ∧
      (Mutation.deleteClient orphaned noFaults (some (.other "abc"))).2 ≠
        .error "Failed to delete client: Client not found" ∧
      (Mutation.deleteProject orphaned noFaults (some (.other "abc"))).2 =
        .error ("Failed to delete project: Cast to ObjectId failed for value \x22abc\x22 " ++
          "(type string) at path \x22_id\x22 for model \x22Project\x22") ∧
      (Mutation.deleteProject orphaned noFaults (some (.other "abc"))).2 ≠
        .error "Failed to delete project: Project not found" := by
  decide

/-- C3, amended: `deleteClient` on an id no client has, and `deleteProject` on an id no
project has, fail and return the state they were given, so every client and every project
is as before; a project whose `clientId` is the missing client id stays. The error is the
not-found error when the id is the text of an `ObjectId` and the store answers the lookup,
and the cast error when the id is any other string. -/
theorem delete_missing_is_noop (s : State) (faults : Faults) (id : GraphQLID) :
    ((∀ c, RootQuery.client s none id ≠ .ok (some c)) →
      (∃ msg, (Mutation.deleteClient s faults (some id)).2 = .error msg) ∧
      (Mutation.deleteClient s faults (some id)).1 = s ∧
      (∀ i, id = .objectId i → faults 0 = none →
        (Mutation.deleteClient s faults (some id)).2 =
          .error "Failed to delete client: Client not found") ∧
      (∀ raw, id = .other raw →
        (Mutation.deleteClient s faults (some id)).2 =
          .error ("Failed to delete client: " ++ castErrorMessage raw "_id" "Client"))) ∧
    ((∀ p, RootQuery.project s none id ≠ .ok (some p)) →
      (∃ msg, (Mutation.deleteProject s faults (some id)).2 = .error msg) ∧
      (Mutation.deleteProject s faults (some id)).1 = s ∧
      (∀ i, id = .objectId i → faults 0 = none →
        (Mutation.deleteProject s faults (some id)).2 =
          .error "Failed to delete project: Project not found") ∧
      (∀ raw, id = .other raw →
        (Mutation.deleteProject s faults (some id)).2 =
          .error ("Failed to delete project: " ++ castErrorMessage raw "_id" "Project"))) := by
  constructor
  · intro h
    rcases id with i | raw
    · have hnone := client_query_unresolved h
      cases hf : faults 0 with
      | some m =>
        rw [deleteClient_fault0 s hf]
        exact ⟨⟨_, rfl⟩, rfl, fun _ _ hf0 => by simp at hf0, fun _ hraw => by simp at hraw⟩
      | none =>
        rw [deleteClient_missing hf hnone]
        exact ⟨⟨_, rfl⟩, rfl, fun _ _ _ => rfl, fun _ hraw => by simp at hraw⟩
    · rw [deleteClient_cast]
      refine ⟨⟨_, rfl⟩, rfl, fun _ hid => by simp at hid, ?_⟩
      intro raw' hraw
      cases hraw
      rfl
  · intro h
    rcases id with i | raw
    · have hnone := project_query_unresolved h
      cases hf : faults 0 with
      | some m =>
        rw [deleteProject_fault0 s hf]
        exact ⟨⟨_, rfl⟩, rfl, fun _ _ hf0 => by simp at hf0, fun _ hraw => by simp at hraw⟩
      | none =>
        rw [deleteProject_missing hf hnone]
        exact ⟨⟨_, rfl⟩, rfl, fun _ _ _ => rfl, fun _ hraw => by simp at hraw⟩
    · rw [deleteProject_cast]
      refine ⟨⟨_, rfl⟩, rfl, fun _ hid => by simp at hid, ?_⟩
      intro raw' hraw
      cases hraw
      rfl

theorem delete_missing_is_noop_witness :
    (∀ c, RootQuery.client orphaned none (.objectId 5) ≠ .ok (some c)) ∧
      (∀ p, RootQuery.project orphaned none (.objectId 5) ≠ .ok (some p)) ∧
      (Mutation.deleteClient orphaned noFaults (some (.objectId 5))).2 =
        .error "Failed to delete client: Client not found" ∧
      (Mutation.deleteClient orphaned noFaults (some (.objectId 5))).1 = orphaned ∧
      (Mutation.deleteClient orphaned noFaults (some (.objectId 5))).1.store.projects =
        [⟨0, "Orphan", "desc", some "Done", 5⟩] ∧
      (Mutation.deleteProject orphaned noFaults (some (.objectId 5))).2 =
        .error "Failed to delete project: Project not found" ∧
      (Mutation.deleteProject orphaned noFaults (some (.objectId 5))).1 = orphaned :=
  have hc : ∀ c, RootQuery.client orphaned none (.objectId 5) ≠ .ok (some c) :=
    fun c hcl => by
      have : RootQuery.client orphaned none (.objectId 5) = .ok none := by decide
      rw [this] at hcl
      simp at hcl
  have hp : ∀ p, RootQuery.project orphaned none (.objectId 5) ≠ .ok (some p) :=
    fun p hpl => by
      have : RootQuery.project orphaned none (.objectId 5) = .ok none := by decide
      rw [this] at hpl
      simp at hpl
  have h1 := (delete_missing_is_noop orphaned noFaults (.objectId 5)).1 hc
  have h2 := (delete_missing_is_noop orphaned noFaults (.objectId 5)).2 hp
  ⟨hc, hp, h1.2.2.1 5 rfl rfl, h1.2.1, by decide, h2.2.2.1 5 rfl rfl, h2.2.1⟩


/-! ## Creating documents -/

/-- C5: on a well-formed store, `addClient` with its three arguments present and accepted
by the schema of the client model returns, when the store serves the call, a client whose
name, email and phone are the arguments, and `client(id)` with the returned id then yields
that very record. -/
theorem addClient_roundtrip (schema : ClientSchema) (s : State) (n e p : String) (hwf : s.WF)
    (hvalid : schema.accepts n e p = true) :
    ∃ c : Client, (Mutation.addClient schema s noFaults (some n) (some e) (some p)).2 = .ok c ∧
      c.name = n ∧ c.email = e ∧ c.phone = p ∧
      RootQuery.client (Mutation.addClient schema s noFaults (some n) (some e) (some p)).1 none
        (.objectId c.id) = .ok (some c) := by
  refine ⟨⟨s.nextId, n, e, p⟩, ?_, rfl, rfl, rfl, ?_⟩
  · rw [addClient_eq schema s rfl hvalid]
  · rw [addClient_eq schema s rfl hvalid]
    have hfresh : ∀ x ∈ s.store.clients, x.id ≠ (⟨s.nextId, n, e, p⟩ : Client).id :=
      fun x hx => Nat.ne_of_lt (hwf.2.2.1 x hx)
    rw [client_query_objectId]
    exact congrArg Except.ok
      (find?_append_fresh (fun x : Client => x.id) s.store.clients ⟨s.nextId, n, e, p⟩ hfresh)

theorem addClient_roundtrip_witness :
    acme.WF ∧ ClientSchema.required.accepts "Bolt" "b@x.com" "555-2" = true ∧
      ∃ c : Client,
        (Mutation.addClient ClientSchema.required acme noFaults (some "Bolt") (some "b@x.com")
          (some "555-2")).2 = .ok c ∧
        c.name = "Bolt" ∧ c.email = "b@x.com" ∧ c.phone = "555-2" ∧
        RootQuery.client
          (Mutation.addClient ClientSchema.required acme noFaults (some "Bolt") (some "b@x.com")
            (some "555-2")).1 none (.objectId c.id) = .ok (some c) :=
  ⟨by decide, by decide,
    addClient_roundtrip ClientSchema.required acme "Bolt" "b@x.com" "555-2" (by decide)
      (by decide)⟩

/-- C6, as stated, fails: `addProject` with `status: null` for an existing client succeeds
and the project it creates has a null status, which is none of "Not Started", "In
Progress", "Done" and not the default. -/
theorem addProject_null_status :
    Mutation.addProject acme noFaults (some "Shop") (some "web shop") (some none)
        (some (.objectId 0)) =
      (⟨⟨[⟨0, "Acme", "a@x.com", "555-1"⟩],
          [⟨1, "Site Redesign", "desc", some "Not Started", 0⟩,
           ⟨2, "Shop", "web shop", none, 0⟩]⟩, 3⟩,
        .ok ⟨2, "Shop", "web shop", none, 0⟩) ∧
      (⟨2, "Shop", "web shop", none, 0⟩ : Project).status ∉
        [some "Not Started", some "In Progress", some "Done"] := by
  decide

/-- C6, amended: whenever `addProject` succeeds, the created project is stored, its status
is the value of the enum name supplied, or "Not Started" when the request leaves the status
out, and in these two cases one of "Not Started", "In Progress", "Done"; when the request
passes null as the status, the status of the created project is null. Its name, description
and clientId are the arguments. The call does succeed when the client exists, the name is
not in use and the store serves the calls. -/
theorem addProject_created_fields (s : State) (n d : String)
    (st : Option (Option ProjectStatusEnum)) (c : GraphQLID) :
    (∀ faults s' p, Mutation.addProject s faults (some n) (some d) st (some c) = (s', .ok p) →
      (∀ e, st = some (some e) → p.status = some e.value) ∧
      (st = none → p.status = some "Not Started") ∧
      (st = some none → p.status = none) ∧
      (st ≠ some none → ∃ v ∈ ["Not Started", "In Progress", "Done"], p.status = some v) ∧
      p.name = n ∧ p.description = d ∧ GraphQLID.objectId p.clientId = c ∧
      (∃ ps, RootQuery.projects s' none = .ok ps ∧ p ∈ ps)) ∧
    ((∃ cl, RootQuery.client s none c = .ok (some cl)) →
      (∀ q ∈ s.store.projects, q.name ≠ n) →
      ∃ s' p, Mutation.addProject s noFaults (some n) (some d) st (some c) = (s', .ok p)) := by
  constructor
  · intro faults s' p hres
    obtain ⟨oid, cl, hc, _, _, hp, hs⟩ := addProject_ok hres
    refine ⟨?_, ?_, ?_, ?_, ?_, ?_, ?_, ?_⟩
    · rintro e rfl; rw [hp]; rfl
    · rintro rfl; rw [hp]; rfl
    · rintro rfl; rw [hp]; rfl
    · intro hst
      rcases st with _ | _ | e
      · exact ⟨"Not Started", by decide, by rw [hp]; rfl⟩
      · exact absurd rfl hst
      · refine ⟨e.value, ?_, by rw [hp]; rfl⟩
        cases e <;> decide
    · rw [hp]
    · rw [hp]
    · rw [hp, hc]
    · rw [hs]
      exact ⟨_, rfl, by simp⟩
  · intro hcl hfree
    obtain ⟨cl, hcl⟩ := hcl
    rcases c with oid | raw
    · have hfind := client_query_some hcl
      have hany : s.store.projects.any (fun q => q.name == n) = false := by
        simpa [List.any_eq_false] using hfree
      exact ⟨_, _, addProject_created (rfl : noFaults 0 = none) hfind rfl hany⟩
    · exact absurd hcl (by simp [RootQuery.client, Client.findById, castObjectId])


theorem addProject_created_fields_witness :
    (∃ cl, RootQuery.client acme none (.objectId 0) = .ok (some cl)) ∧
      (∀ q ∈ acme.store.projects, q.name ≠ "Shop") ∧
      Mutation.addProject acme noFaults (some "Shop") (some "web shop") none
          (some (.objectId 0)) =
        (⟨⟨[⟨0, "Acme", "a@x.com", "555-1"⟩],
            [⟨1, "Site Redesign", "desc", some "Not Started", 0⟩,
             ⟨2, "Shop", "web shop", some "Not Started", 0⟩]⟩, 3⟩,
          .ok ⟨2, "Shop", "web shop", some "Not Started", 0⟩) ∧
      (∃ v ∈ ["Not Started", "In Progress", "Done"],
        (⟨2, "Shop", "web shop", some "Not Started", 0⟩ : Project).status = some v) ∧
      ∃ s' p, Mutation.addProject acme noFaults (some "Shop") (some "web shop")
        (some (some .COMPLETED)) (some (.objectId 0)) = (s', .ok p) :=
  ⟨⟨⟨0, "Acme", "a@x.com", "555-1"⟩, by decide⟩, by decide, by decide,
    ((addProject_created_fields acme "Shop" "web shop" none (.objectId 0)).1 noFaults
      ⟨⟨[⟨0, "Acme", "a@x.com", "555-1"⟩],
          [⟨1, "Site Redesign", "desc", some "Not Started", 0⟩,
           ⟨2, "Shop", "web shop", some "Not Started", 0⟩]⟩, 3⟩
      ⟨2, "Shop", "web shop", some "Not Started", 0⟩ (by decide)).2.2.2.1 (by decide),
    (addProject_created_fields acme "Shop" "web shop" (some (some .COMPLETED))
      (.objectId 0)).2 ⟨⟨0, "Acme", "a@x.com", "555-1"⟩, by decide⟩ (by decide)⟩

/-- C7: with the client schema the spec describes, `addClient` requires all three of
name, email and phone to be non-empty strings. A call that leaves one of them out is
rejected by the gateway, whatever the schema, and the state stays as it was; a call in which
one of them is the empty string fails in `save()` and the store stays as it was: no client
is persisted. A call that gives three non-empty strings succeeds when the store serves it. -/
theorem addClient_requires_arguments (s : State) (faults : Faults) :
    (∀ (schema : ClientSchema) (name email phone : Option String),
      (name = none ∨ email = none ∨ phone = none) →
      (∃ msg, (Mutation.addClient schema s faults name email phone).2 = .error msg) ∧
      (Mutation.addClient schema s faults name email phone).1 = s) ∧
    (∀ n e p : String, (n = "" ∨ e = "" ∨ p = "") →
      (∃ msg, (Mutation.addClient ClientSchema.required s faults (some n) (some e)
        (some p)).2 = .error msg) ∧
      (Mutation.addClient ClientSchema.required s faults (some n) (some e)
        (some p)).1.store = s.store) ∧
    (∀ n e p : String, n ≠ "" → e ≠ "" → p ≠ "" →
      (Mutation.addClient ClientSchema.required s noFaults (some n) (some e) (some p)).2 =
        .ok ⟨s.nextId, n, e, p⟩ ∧
      (Mutation.addClient ClientSchema.required s noFaults (some n) (some e)
        (some p)).1.store.clients = s.store.clients ++ [⟨s.nextId, n, e, p⟩]) := by
  refine ⟨?_, ?_, ?_⟩
  · intro schema name email phone h
    cases name <;> cases email <;> cases phone <;>
      first
        | exact ⟨⟨requiredArgumentMessage, rfl⟩, rfl⟩
        | simp at h
  · intro n e p h
    have hv : ClientSchema.required.accepts n e p = false := by
      rcases h with rfl | rfl | rfl <;> simp [ClientSchema.required]
    rw [addClient_rejected ClientSchema.required s faults hv]
    exact ⟨⟨_, rfl⟩, rfl⟩
  · intro n e p hn he hp
    have hv : ClientSchema.required.accepts n e p = true := by
      simp [ClientSchema.required, hn, he, hp]
    rw [addClient_eq ClientSchema.required s rfl hv]
    exact ⟨rfl, rfl⟩

theorem addClient_requires_arguments_witness :
    ((∃ msg, (Mutation.addClient ClientSchema.required acme noFaults (some "Bolt") none
        (some "555-2")).2 = .error msg) ∧
      (Mutation.addClient ClientSchema.required acme noFaults (some "Bolt") none
        (some "555-2")).1 = acme) ∧
    ((∃ msg, (Mutation.addClient ClientSchema.required acme noFaults (some "Bolt") (some "")
        (some "555-2")).2 = .error msg) ∧
      (Mutation.addClient ClientSchema.required acme noFaults (some "Bolt") (some "")
        (some "555-2")).1.store = acme.store) ∧
    (Mutation.addClient ClientSchema.required acme noFaults (some "Bolt") (some "b@x.com")
      (some "555-2")).2 = .ok ⟨2, "Bolt", "b@x.com", "555-2"⟩ :=
  ⟨(addClient_requires_arguments acme noFaults).1 ClientSchema.required (some "Bolt") none
      (some "555-2") (Or.inr (Or.inl rfl)),
    (addClient_requires_arguments acme noFaults).2.1 "Bolt" "" "555-2" (Or.inr (Or.inl rfl)),
    ((addClient_requires_arguments acme noFaults).2.2 "Bolt" "b@x.com" "555-2" (by decide)
      (by decide) (by decide)).1⟩


/-! ## Updating a project -/

theorem orElse_some {v : String} (h : v ≠ "") (stored : String) : orElse (some v) stored = v := by
  simp [orElse, truthy, h]

theorem orElse_empty (stored : String) : orElse (some "") stored = stored := by
  simp [orElse, truthy]

theorem orElseNull_value (e : ProjectStatusEnum) (stored : Option String) :
    orElseNull (some e.value) stored = some e.value := by
  cases e <;> rfl

theorem orElse_cases (arg : Option String) (stored : String) :
    orElse arg stored = stored ∨ ∃ v, arg = some v ∧ v ≠ "" ∧ orElse arg stored = v := by
  cases arg with
  | none => exact Or.inl rfl
  | some v =>
    by_cases h : v = ""
    · subst h; exact Or.inl (orElse_empty stored)
    · exact Or.inr ⟨v, rfl, h, orElse_some h stored⟩

/-- C4: for a stored project, whenever `updateProject` returns, the record returned is
the record stored under the id after the call, and in it each of name, description and
status is the argument when the argument is given and not empty, and the value stored
before otherwise; id and clientId are as before. A call that gives only a status
therefore changes only the status. The call does return when the store serves it, project
names are unique in the store and the name given, if any, is held by no other project. -/
theorem updateProject_partial (s : State) (id : Id) (p : Project)
    (name description : Option String) (status : Option ProjectStatusEnum)
    (hp : RootQuery.project s none (.objectId id) = .ok (some p)) :
    (∀ faults s' r,
      Mutation.updateProject s faults (some (.objectId id)) name description status =
        (s', .ok r) →
      ∃ u : Project, r = some u ∧ RootQuery.project s' none (.objectId id) = .ok (some u) ∧
        (∀ v, name = some v → v ≠ "" → u.name = v) ∧
        (name = none ∨ name = some "" → u.name = p.name) ∧
        (∀ v, description = some v → v ≠ "" → u.description = v) ∧
        (description = none ∨ description = some "" → u.description = p.description) ∧
        (∀ e, status = some e → u.status = some e.value) ∧
        (status = none → u.status = p.status) ∧
        u.id = p.id ∧ u.clientId = p.clientId) ∧
    (UniqueNames s →
      (∀ v, name = some v → ∀ q ∈ s.store.projects, q.id ≠ id → q.name ≠ v) →
      ∃ s' u, Mutation.updateProject s noFaults (some (.objectId id)) name description status =
        (s', .ok (some u))) := by
  have hp' := project_query_some hp
  obtain ⟨hpm, hpid⟩ := find?_key_some (fun x : Project => x.id) hp'
  constructor
  · intro faults s' r hres
    obtain ⟨p1, hfind, hr, hs⟩ := updateProject_ok hres
    rw [hp'] at hfind
    have hpp : p = p1 := Option.some.inj hfind
    subst hpp hs
    refine ⟨_, hr, ?_, ?_, ?_, ?_, ?_, ?_, ?_, rfl, rfl⟩
    · have hupd := find?_updateFirst_self id
        (setFields (orElse name p.name) (orElse description p.description)
          (orElseNull (status.map ProjectStatusEnum.value) p.status)) (fun _ => rfl) s.store.projects
      rw [hp'] at hupd
      rw [project_query_objectId]
      exact congrArg Except.ok hupd
    · rintro v rfl hv
      exact orElse_some hv _
    · rintro (rfl | rfl)
      · rfl
      · exact orElse_empty _
    · rintro v rfl hv
      exact orElse_some hv _
    · rintro (rfl | rfl)
      · rfl
      · exact orElse_empty _
    · rintro e rfl
      exact orElseNull_value e _
    · rintro rfl
      rfl
  · intro huniq hname
    have hfree : ∀ q ∈ s.store.projects, q.id ≠ id → q.name ≠ orElse name p.name := by
      intro q hq hqid
      rcases orElse_cases name p.name with h1 | ⟨v, hv, _, h1⟩
      · rw [h1]
        intro hqn
        have hqp : q = p := List.inj_on_of_nodup_map huniq hq hpm hqn
        exact hqid (by rw [hqp]; exact hpid)
      · rw [h1]
        exact hname v hv q hq hqid
    have hany : s.store.projects.any (fun q => q.id != id && q.name == orElse name p.name)
        = false := by
      rw [List.any_eq_false]
      intro q hq
      by_cases hqid : q.id = id
      · simp [hqid]
      · simp [hqid, hfree q hq hqid]
    exact ⟨_, _, updateProject_stored (rfl : noFaults 0 = none) hp' rfl hany⟩

theorem updateProject_partial_witness :
    RootQuery.project acme none (.objectId 1) =
        .ok (some ⟨1, "Site Redesign", "desc", some "Not Started", 0⟩) ∧
      UniqueNames acme ∧
      Mutation.updateProject acme noFaults (some (.objectId 1)) none none (some .IN_PROGRESS) =
        (⟨⟨[⟨0, "Acme", "a@x.com", "555-1"⟩],
            [⟨1, "Site Redesign", "desc", some "In Progress", 0⟩]⟩, 2⟩,
          .ok (some ⟨1, "Site Redesign", "desc", some "In Progress", 0⟩)) ∧
      (∃ u : Project,
        some (⟨1, "Site Redesign", "desc", some "In Progress", 0⟩ : Project) = some u ∧
        RootQuery.project ⟨⟨[⟨0, "Acme", "a@x.com", "555-1"⟩],
            [⟨1, "Site Redesign", "desc", some "In Progress", 0⟩]⟩, 2⟩ none (.objectId 1) =
          .ok (some u) ∧
        (∀ v, (none : Option String) = some v → v ≠ "" → u.name = v) ∧
        ((none : Option String) = none ∨ (none : Option String) = some "" →
          u.name = "Site Redesign") ∧
        (∀ v, (none : Option String) = some v → v ≠ "" → u.description = v) ∧
        ((none : Option String) = none ∨ (none : Option String) = some "" →
          u.description = "desc") ∧
        (∀ e, some ProjectStatusEnum.IN_PROGRESS = some e → u.status = some e.value) ∧
        (some ProjectStatusEnum.IN_PROGRESS = none → u.status = some "Not Started") ∧
        u.id = 1 ∧ u.clientId = 0) ∧
      ∃ s' u, Mutation.updateProject acme noFaults (some (.objectId 1)) none none
        (some .IN_PROGRESS) = (s', .ok (some u)) :=
  have h := updateProject_partial acme 1 ⟨1, "Site Redesign", "desc", some "Not Started", 0⟩
    none none (some .IN_PROGRESS) (by decide)
  ⟨by decide, by decide, by decide, h.1 noFaults _ _ (by decide),
    h.2 (by decide) (fun v hv => nomatch hv)⟩

/-! ## Invariants of the reachable states -/

/-- C9: in every state reachable from the empty store through the mutations no two
stored projects have the same name; `addProject` with a name a stored project has, and
`updateProject` giving a project a (non-empty) name that another stored project has,
fail and leave both collections as they were. -/
theorem project_names_unique :
    (∀ s, Reachable s → UniqueNames s ∧
      ∀ p ∈ s.store.projects, ∀ q ∈ s.store.projects, p.name = q.name → p = q) ∧
    (∀ s faults n d st c, (∃ q ∈ s.store.projects, q.name = n) →
      (∃ msg, (Mutation.addProject s faults (some n) (some d) st (some c)).2 = .error msg) ∧
      (Mutation.addProject s faults (some n) (some d) st (some c)).1.store = s.store) ∧
    (∀ s faults id v d st, v ≠ "" →
      (∃ q ∈ s.store.projects, GraphQLID.objectId q.id ≠ id ∧ q.name = v) →
      (∃ msg, (Mutation.updateProject s faults (some id) (some v) d st).2 = .error msg) ∧
      (Mutation.updateProject s faults (some id) (some v) d st).1.store = s.store) := by
  refine ⟨?_, ?_, ?_⟩
  · intro s hs
    have hu := (inv_of_reachable hs).2.1
    exact ⟨hu, fun p hp q hq hpq => List.inj_on_of_nodup_map hu hp hq hpq⟩
  · rintro s faults n d st c ⟨q, hq, hqn⟩
    rcases c with c | raw
    · cases hf : faults 0 with
      | some m => rw [addProject_fault0 s n d st c hf]; exact ⟨⟨_, rfl⟩, rfl⟩
      | none =>
        cases hc : s.store.clients.find? (fun x => x.id == c) with
        | none => rw [addProject_missing hf hc]; exact ⟨⟨_, rfl⟩, rfl⟩
        | some cl =>
          cases hf1 : faults 1 with
          | some m => rw [addProject_fault1 hf hc hf1]; exact ⟨⟨_, rfl⟩, rfl⟩
          | none =>
            have hn : s.store.projects.any (fun x => x.name == n) = true :=
              List.any_eq_true.mpr ⟨q, hq, by simpa using hqn⟩
            rw [addProject_duplicate hf hc hf1 hn]
            exact ⟨⟨_, rfl⟩, rfl⟩
    · rw [addProject_cast]; exact ⟨⟨_, rfl⟩, rfl⟩
  · rintro s faults id v d st hv ⟨q, hq, hqid, hqn⟩
    rcases id with id | raw
    · cases hf : faults 0 with
      | some m => rw [updateProject_fault0 s (some v) d st hf]; exact ⟨⟨_, rfl⟩, rfl⟩
      | none =>
        cases hp : s.store.projects.find? (fun p => p.id == id) with
        | none => rw [updateProject_missing hf hp]; exact ⟨⟨_, rfl⟩, rfl⟩
        | some p =>
          cases hf1 : faults 1 with
          | some m => rw [updateProject_fault1 hf hp hf1]; exact ⟨⟨_, rfl⟩, rfl⟩
          | none =>
            have hqid' : q.id ≠ id := fun e => hqid (by rw [e])
            have hn : s.store.projects.any
                (fun x => x.id != id && x.name == orElse (some v) p.name) = true := by
              rw [orElse_some hv]
              exact List.any_eq_true.mpr ⟨q, hq, by simp [hqid', hqn]⟩
            rw [updateProject_duplicate hf hp hf1 hn]
            exact ⟨⟨_, rfl⟩, rfl⟩
    · rw [updateProject_cast]; exact ⟨⟨_, rfl⟩, rfl⟩

theorem project_names_unique_witness :
    Reachable twoProjects ∧ UniqueNames twoProjects ∧
      ((∃ msg, (Mutation.addProject twoProjects noFaults (some "Shop") (some "again") none
          (some (.objectId 0))).2 = .error msg) ∧
        (Mutation.addProject twoProjects noFaults (some "Shop") (some "again") none
          (some (.objectId 0))).1.store = twoProjects.store) ∧
      ((∃ msg, (Mutation.updateProject twoProjects noFaults (some (.objectId 1)) (some "Shop")
          none none).2 = .error msg) ∧
        (Mutation.updateProject twoProjects noFaults (some (.objectId 1)) (some "Shop")
          none none).1.store = twoProjects.store) :=
  have hr : Reachable twoProjects :=
    ⟨ClientSchema.required,
      [served (.addClient (some "Acme") (some "a@x.com") (some "555-1")),
       served (.addProject (some "Site Redesign") (some "desc") none (some (.objectId 0))),
       served (.addProject (some "Shop") (some "web shop") (some (some .IN_PROGRESS))
         (some (.objectId 0)))], rfl⟩
  ⟨hr, (project_names_unique.1 twoProjects hr).1,
    project_names_unique.2.1 twoProjects noFaults "Shop" "again" none (.objectId 0)
      ⟨⟨2, "Shop", "web shop", some "In Progress", 0⟩, by decide, rfl⟩,
    project_names_unique.2.2 twoProjects noFaults (.objectId 1) "Shop" none none (by decide)
      ⟨⟨2, "Shop", "web shop", some "In Progress", 0⟩, by decide, by decide, rfl⟩⟩

/-- C10: in every state reachable from the empty store by a sequence of `addClient`,
`deleteClient`, `addProject`, `deleteProject` and `updateProject` requests, each stored
project's `clientId` is the id of a stored client: the `client` field of the project
resolves to that client and is never null. -/
theorem referential_integrity (s : State) (h : Reachable s) :
    ∀ ps, RootQuery.projects s none = .ok ps → ∀ p ∈ ps,
      ∃ c : Client, ProjectType.client s none p = .ok (some c) ∧ c.id = p.clientId ∧
        ∃ cs, RootQuery.clients s none = .ok cs ∧ c ∈ cs := by
  intro ps hps p hp
  have hps' : s.store.projects = ps := Except.ok.inj hps
  subst hps'
  obtain ⟨c, hcm, hcid⟩ := (inv_of_reachable h).2.2 p hp
  have hwf := (inv_of_reachable h).1
  have hfind : s.store.clients.find? (fun x => x.id == p.clientId) = some c := by
    have := find?_key_of_mem (fun x : Client => x.id) s.store.clients c hwf.1 hcm
    simpa only [hcid] using this
  exact ⟨c, congrArg Except.ok hfind, hcid, _, rfl, hcm⟩

theorem referential_integrity_witness :
    Reachable afterCascade ∧
      RootQuery.projects afterCascade none = .ok [⟨3, "Store", "web shop", some "Done", 1⟩] ∧
      ∀ p ∈ [(⟨3, "Store", "web shop", some "Done", 1⟩ : Project)],
        ∃ c : Client, ProjectType.client afterCascade none p = .ok (some c) ∧
          c.id = p.clientId ∧ ∃ cs, RootQuery.clients afterCascade none = .ok cs ∧ c ∈ cs :=
  ⟨⟨_, _, rfl⟩, by decide,
    referential_integrity afterCascade ⟨_, _, rfl⟩ _ (by decide)⟩


/-! ## Errors raised by the mutation resolvers -/

theorem client_query_other (s : State) (raw : String) (r : Option Client) :
    RootQuery.client s none (.other raw) ≠ .ok r := by
  intro h
  simp [RootQuery.client, Client.findById, castObjectId] at h

theorem project_query_other (s : State) (raw : String) (r : Option Project) :
    RootQuery.project s none (.other raw) ≠ .ok r := by
  intro h
  simp [RootQuery.project, Project.findById, castObjectId] at h

/-- C8, as stated, fails in its example: `deleteClient` on the id "abc", which no client
has, does not raise "Failed to delete client: Client not found"; the error thrown inside
the resolver is the cast error of the model and the message raised is the text of the
operation followed by the message of that error. -/
theorem deleteClient_missing_id_message :
    (∀ c ∈ acme.store.clients, GraphQLID.objectId c.id ≠ GraphQLID.other "abc") ∧
      (Mutation.deleteClient.body acme noFaults (.other "abc")).2 =
        .error ("Cast to ObjectId failed for value \x22abc\x22 (type string) at path " ++
          "\x22_id\x22 for model \x22Client\x22") ∧
      (Mutation.deleteClient.resolve acme noFaults (.other "abc")).2 =
        .error ("Failed to delete client: Cast to ObjectId failed for value \x22abc\x22 " ++
          "(type string) at path \x22_id\x22 for model \x22Client\x22") ∧
      (Mutation.deleteClient.resolve acme noFaults (.other "abc")).2 ≠
        .error "Failed to delete client: Client not found" := by
  decide

/-- C8, amended: in each of the five mutation resolvers every failure inside the `try`
block reaches the caller as one error whose message is the fixed text of the operation
followed by the message of the error thrown: the cast error for an id that is not the
text of an `ObjectId`, the not-found error, the error of a store call that fails, the
validation error of the client schema, the duplicate-key error of the unique index; and
every error a resolver raises is of this form. `deleteClient` on a missing id that is the
text of an `ObjectId` raises exactly "Failed to delete client: Client not found". -/
theorem mutation_error_message (schema : ClientSchema) (s : State) (faults : Faults) :
    (∀ n e p,
      (schema.accepts n e p = false →
        (Mutation.addClient.resolve schema s faults n e p).2 =
          .error ("Failed to add client: " ++ clientValidationMessage)) ∧
      (∀ m, schema.accepts n e p = true → faults 0 = some m →
        (Mutation.addClient.resolve schema s faults n e p).2 =
          .error ("Failed to add client: " ++ m)) ∧
      (∀ msg, (Mutation.addClient.resolve schema s faults n e p).2 = .error msg →
        ∃ u, msg = "Failed to add client: " ++ u ∧
          (u = clientValidationMessage ∨ faults 0 = some u))) ∧
    (∀ id,
      (∀ raw, id = .other raw →
        (Mutation.deleteClient.resolve s faults id).2 =
          .error ("Failed to delete client: " ++ castErrorMessage raw "_id" "Client")) ∧
      (∀ i m, id = .objectId i → faults 0 = some m →
        (Mutation.deleteClient.resolve s faults id).2 =
          .error ("Failed to delete client: " ++ m)) ∧
      (faults 0 = none → RootQuery.client s none id = .ok none →
        (Mutation.deleteClient.resolve s faults id).2 =
          .error "Failed to delete client: Client not found") ∧
      (∀ c m, faults 0 = none → RootQuery.client s none id = .ok (some c) →
        faults 1 = some m →
        (Mutation.deleteClient.resolve s faults id).2 =
          .error ("Failed to delete client: " ++ m)) ∧
      (∀ c m, faults 0 = none → RootQuery.client s none id = .ok (some c) →
        faults 1 = none → faults 2 = some m →
        (Mutation.deleteClient.resolve s faults id).2 =
          .error ("Failed to delete client: " ++ m)) ∧
      (∀ msg, (Mutation.deleteClient.resolve s faults id).2 = .error msg →
        ∃ u, msg = "Failed to delete client: " ++ u ∧
          (u = "Client not found" ∨
            (∃ raw, id = .other raw ∧ u = castErrorMessage raw "_id" "Client") ∨
            ∃ k, faults k = some u))) ∧
    (∀ n d st c,
      (∀ raw, c = .other raw →
        (Mutation.addProject.resolve s faults n d (addProjectStatus st) c).2 =
          .error ("Failed to add project: " ++ castErrorMessage raw "_id" "Client")) ∧
      (∀ i m, c = .objectId i → faults 0 = some m →
        (Mutation.addProject.resolve s faults n d (addProjectStatus st) c).2 =
          .error ("Failed to add project: " ++ m)) ∧
      (faults 0 = none → RootQuery.client s none c = .ok none →
        (Mutation.addProject.resolve s faults n d (addProjectStatus st) c).2 =
          .error "Failed to add project: Client not found") ∧
      (∀ cl m, faults 0 = none → RootQuery.client s none c = .ok (some cl) →
        faults 1 = some m →
        (Mutation.addProject.resolve s faults n d (addProjectStatus st) c).2 =
          .error ("Failed to add project: " ++ m)) ∧
      (∀ cl, faults 0 = none → RootQuery.client s none c = .ok (some cl) →
        faults 1 = none → (∃ q ∈ s.store.projects, q.name = n) →
        (Mutation.addProject.resolve s faults n d (addProjectStatus st) c).2 =
          .error ("Failed to add project: " ++ duplicateKeyMessage)) ∧
      (∀ msg, (Mutation.addProject.resolve s faults n d (addProjectStatus st) c).2 =
          .error msg →
        ∃ u, msg = "Failed to add project: " ++ u ∧
          (u = "Client not found" ∨
            (∃ raw, c = .other raw ∧ u = castErrorMessage raw "_id" "Client") ∨
            u = duplicateKeyMessage ∨ ∃ k, faults k = some u))) ∧
    (∀ id,
      (∀ raw, id = .other raw →
        (Mutation.deleteProject.resolve s faults id).2 =
          .error ("Failed to delete project: " ++ castErrorMessage raw "_id" "Project")) ∧
      (∀ i m, id = .objectId i → faults 0 = some m →
        (Mutation.deleteProject.resolve s faults id).2 =
          .error ("Failed to delete project: " ++ m)) ∧
      (faults 0 = none → RootQuery.project s none id = .ok none →
        (Mutation.deleteProject.resolve s faults id).2 =
          .error "Failed to delete project: Project not found") ∧
      (∀ p m, faults 0 = none → RootQuery.project s none id = .ok (some p) →
        faults 1 = some m →
        (Mutation.deleteProject.resolve s faults id).2 =
          .error ("Failed to delete project: " ++ m)) ∧
      (∀ msg, (Mutation.deleteProject.resolve s faults id).2 = .error msg →
        ∃ u, msg = "Failed to delete project: " ++ u ∧
          (u = "Project not found" ∨
            (∃ raw, id = .other raw ∧ u = castErrorMessage raw "_id" "Project") ∨
            ∃ k, faults k = some u))) ∧
    (∀ id n d st,
      (∀ raw, id = .other raw →
        (Mutation.updateProject.resolve s faults id n d (Option.map ProjectStatusEnum.value st)).2 =
          .error ("Failed to update project: " ++ castErrorMessage raw "_id" "Project")) ∧
      (∀ i m, id = .objectId i → faults 0 = some m →
        (Mutation.updateProject.resolve s faults id n d (Option.map ProjectStatusEnum.value st)).2 =
          .error ("Failed to update project: " ++ m)) ∧
      (faults 0 = none → RootQuery.project s none id = .ok none →
        (Mutation.updateProject.resolve s faults id n d (Option.map ProjectStatusEnum.value st)).2 =
          .error "Failed to update project: Project not found") ∧
      (∀ p m, faults 0 = none → RootQuery.project s none id = .ok (some p) →
        faults 1 = some m →
        (Mutation.updateProject.resolve s faults id n d (Option.map ProjectStatusEnum.value st)).2 =
          .error ("Failed to update project: " ++ m)) ∧
      (∀ p v, faults 0 = none → RootQuery.project s none id = .ok (some p) →
        faults 1 = none → n = some v → v ≠ "" →
        (∃ q ∈ s.store.projects, GraphQLID.objectId q.id ≠ id ∧ q.name = v) →
        (Mutation.updateProject.resolve s faults id n d (Option.map ProjectStatusEnum.value st)).2 =
          .error ("Failed to update project: " ++ duplicateKeyMessage)) ∧
      (∀ msg,
        (Mutation.updateProject.resolve s faults id n d (Option.map ProjectStatusEnum.value st)).2 =
          .error msg →
        ∃ u, msg = "Failed to update project: " ++ u ∧
          (u = "Project not found" ∨
            (∃ raw, id = .other raw ∧ u = castErrorMessage raw "_id" "Project") ∨
            u = duplicateKeyMessage ∨ ∃ k, faults k = some u))) := by
  refine ⟨?_, ?_, ?_, ?_, ?_⟩
  · intro n e p
    refine ⟨?_, ?_, ?_⟩
    · intro hv
      exact congrArg Prod.snd (addClient_rejected schema s faults hv)
    · intro m hv hf
      exact congrArg Prod.snd (addClient_fault schema s hf hv)
    · intro msg hmsg
      change (Mutation.addClient schema s faults (some n) (some e) (some p)).2 = _ at hmsg
      cases hv : schema.accepts n e p with
      | false =>
        rw [addClient_rejected schema s faults hv] at hmsg
        exact ⟨_, (Except.error.inj hmsg).symm, Or.inl rfl⟩
      | true =>
        cases hf : faults 0 with
        | some m =>
          rw [addClient_fault schema s hf hv] at hmsg
          exact ⟨m, (Except.error.inj hmsg).symm, Or.inr rfl⟩
        | none =>
          rw [addClient_eq schema s hf hv] at hmsg
          simp at hmsg
  · intro id
    rcases id with i | raw
    · have hq : ∀ r, RootQuery.client s none (.objectId i) = .ok r →
          s.store.clients.find? (fun c => c.id == i) = r := fun r hr => Except.ok.inj hr
      refine ⟨fun _ h => by simp at h, ?_, ?_, ?_, ?_, ?_⟩
      · intro i' m _ hf
        exact congrArg Prod.snd (deleteClient_fault0 s hf)
      · intro hf hc
        exact congrArg Prod.snd (deleteClient_missing hf (hq _ hc))
      · intro c m hf hc hf1
        exact congrArg Prod.snd (deleteClient_fault1 hf (hq _ hc) hf1)
      · intro c m hf hc hf1 hf2
        exact congrArg Prod.snd (deleteClient_fault2 hf (hq _ hc) hf1 hf2)
      · intro msg hmsg
        change (Mutation.deleteClient s faults (some (.objectId i))).2 = _ at hmsg
        cases hf : faults 0 with
        | some m =>
          rw [deleteClient_fault0 s hf] at hmsg
          exact ⟨m, (Except.error.inj hmsg).symm, Or.inr (Or.inr ⟨0, hf⟩)⟩
        | none =>
          cases hc : s.store.clients.find? (fun c => c.id == i) with
          | none =>
            rw [deleteClient_missing hf hc] at hmsg
            exact ⟨_, (Except.error.inj hmsg).symm, Or.inl rfl⟩
          | some c =>
            cases hf1 : faults 1 with
            | some m =>
              rw [deleteClient_fault1 hf hc hf1] at hmsg
              exact ⟨m, (Except.error.inj hmsg).symm, Or.inr (Or.inr ⟨1, hf1⟩)⟩
            | none =>
              cases hf2 : faults 2 with
              | some m =>
                rw [deleteClient_fault2 hf hc hf1 hf2] at hmsg
                exact ⟨m, (Except.error.inj hmsg).symm, Or.inr (Or.inr ⟨2, hf2⟩)⟩
              | none =>
                rw [deleteClient_found hf hc hf1 hf2] at hmsg
                simp at hmsg
    · refine ⟨?_, fun _ _ h => by simp at h,
        fun _ hc => absurd hc (client_query_other s raw _),
        fun _ _ _ hc => absurd hc (client_query_other s raw _),
        fun _ _ _ hc => absurd hc (client_query_other s raw _), ?_⟩
      · intro raw' hraw
        cases hraw
        exact congrArg Prod.snd (deleteClient_cast s faults raw)
      · intro msg hmsg
        change (Mutation.deleteClient s faults (some (.other raw))).2 = _ at hmsg
        rw [deleteClient_cast] at hmsg
        exact ⟨_, (Except.error.inj hmsg).symm, Or.inr (Or.inl ⟨raw, rfl, rfl⟩)⟩
  · intro n d st c
    rcases c with i | raw
    · have hq : ∀ r, RootQuery.client s none (.objectId i) = .ok r →
          s.store.clients.find? (fun c => c.id == i) = r := fun r hr => Except.ok.inj hr
      refine ⟨fun _ h => by simp at h, ?_, ?_, ?_, ?_, ?_⟩
      · intro i' m _ hf
        exact congrArg Prod.snd (addProject_fault0 s n d st i hf)
      · intro hf hc
        exact congrArg Prod.snd (addProject_missing hf (hq _ hc))
      · intro cl m hf hc hf1
        exact congrArg Prod.snd (addProject_fault1 hf (hq _ hc) hf1)
      · rintro cl hf hc hf1 ⟨q, hq1, hqn⟩
        have hn : s.store.projects.any (fun x => x.name == n) = true :=
          List.any_eq_true.mpr ⟨q, hq1, by simpa using hqn⟩
        exact congrArg Prod.snd (addProject_duplicate hf (hq _ hc) hf1 hn)
      · intro msg hmsg
        change (Mutation.addProject s faults (some n) (some d) st (some (.objectId i))).2 = _
          at hmsg
        cases hf : faults 0 with
        | some m =>
          rw [addProject_fault0 s n d st i hf] at hmsg
          exact ⟨m, (Except.error.inj hmsg).symm, Or.inr (Or.inr (Or.inr ⟨0, hf⟩))⟩
        | none =>
          cases hc : s.store.clients.find? (fun c => c.id == i) with
          | none =>
            rw [addProject_missing hf hc] at hmsg
            exact ⟨_, (Except.error.inj hmsg).symm, Or.inl rfl⟩
          | some cl =>
            cases hf1 : faults 1 with
            | some m =>
              rw [addProject_fault1 hf hc hf1] at hmsg
              exact ⟨m, (Except.error.inj hmsg).symm, Or.inr (Or.inr (Or.inr ⟨1, hf1⟩))⟩
            | none =>
              cases hn : s.store.projects.any (fun x => x.name == n) with
              | true =>
                rw [addProject_duplicate hf hc hf1 hn] at hmsg
                exact ⟨_, (Except.error.inj hmsg).symm, Or.inr (Or.inr (Or.inl rfl))⟩
              | false =>
                rw [addProject_created hf hc hf1 hn] at hmsg
                simp at hmsg
    · refine ⟨?_, fun _ _ h => by simp at h,
        fun _ hc => absurd hc (client_query_other s raw _),
        fun _ _ _ hc => absurd hc (client_query_other s raw _),
        fun _ _ hc => absurd hc (client_query_other s raw _), ?_⟩
      · intro raw' hraw
        cases hraw
        exact congrArg Prod.snd (addProject_cast s faults n d st raw)
      · intro msg hmsg
        change (Mutation.addProject s faults (some n) (some d) st (some (.other raw))).2 = _
          at hmsg
        rw [addProject_cast] at hmsg
        exact ⟨_, (Except.error.inj hmsg).symm, Or.inr (Or.inl ⟨raw, rfl, rfl⟩)⟩
  · intro id
    rcases id with i | raw
    · have hq : ∀ r, RootQuery.project s none (.objectId i) = .ok r →
          s.store.projects.find? (fun p => p.id == i) = r := fun r hr => Except.ok.inj hr
      refine ⟨fun _ h => by simp at h, ?_, ?_, ?_, ?_⟩
      · intro i' m _ hf
        exact congrArg Prod.snd (deleteProject_fault0 s hf)
      · intro hf hc
        exact congrArg Prod.snd (deleteProject_missing hf (hq _ hc))
      · intro p m hf hc hf1
        exact congrArg Prod.snd (deleteProject_fault1 hf (hq _ hc) hf1)
      · intro msg hmsg
        change (Mutation.deleteProject s faults (some (.objectId i))).2 = _ at hmsg
        cases hf : faults 0 with
        | some m =>
          rw [deleteProject_fault0 s hf] at hmsg
          exact ⟨m, (Except.error.inj hmsg).symm, Or.inr (Or.inr ⟨0, hf⟩)⟩
        | none =>
          cases hc : s.store.projects.find? (fun p => p.id == i) with
          | none =>
            rw [deleteProject_missing hf hc] at hmsg
            exact ⟨_, (Except.error.inj hmsg).symm, Or.inl rfl⟩
          | some p =>
            cases hf1 : faults 1 with
            | some m =>
              rw [deleteProject_fault1 hf hc hf1] at hmsg
              exact ⟨m, (Except.error.inj hmsg).symm, Or.inr (Or.inr ⟨1, hf1⟩)⟩
            | none =>
              rw [deleteProject_found hf hc hf1] at hmsg
              simp at hmsg
    · refine ⟨?_, fun _ _ h => by simp at h,
        fun _ hc => absurd hc (project_query_other s raw _),
        fun _ _ _ hc => absurd hc (project_query_other s raw _), ?_⟩
      · intro raw' hraw
        cases hraw
        exact congrArg Prod.snd (deleteProject_cast s faults raw)
      · intro msg hmsg
        change (Mutation.deleteProject s faults (some (.other raw))).2 = _ at hmsg
        rw [deleteProject_cast] at hmsg
        exact ⟨_, (Except.error.inj hmsg).symm, Or.inr (Or.inl ⟨raw, rfl, rfl⟩)⟩
  · intro id n d st
    rcases id with i | raw
    · have hq : ∀ r, RootQuery.project s none (.objectId i) = .ok r →
          s.store.projects.find? (fun p => p.id == i) = r := fun r hr => Except.ok.inj hr
      refine ⟨fun _ h => by simp at h, ?_, ?_, ?_, ?_, ?_⟩
      · intro i' m _ hf
        exact congrArg Prod.snd (updateProject_fault0 s n d st hf)
      · intro hf hc
        exact congrArg Prod.snd (updateProject_missing hf (hq _ hc))
      · intro p m hf hc hf1
        exact congrArg Prod.snd (updateProject_fault1 hf (hq _ hc) hf1)
      · rintro p v hf hc hf1 rfl hv ⟨q, hq1, hqid, hqn⟩
        have hqid' : q.id ≠ i := fun e => hqid (by rw [e])
        have hn : s.store.projects.any
            (fun x => x.id != i && x.name == orElse (some v) p.name) = true := by
          rw [orElse_some hv]
          exact List.any_eq_true.mpr ⟨q, hq1, by simp [hqid', hqn]⟩
        exact congrArg Prod.snd (updateProject_duplicate hf (hq _ hc) hf1 hn)
      · intro msg hmsg
        change (Mutation.updateProject s faults (some (.objectId i)) n d st).2 = _ at hmsg
        cases hf : faults 0 with
        | some m =>
          rw [updateProject_fault0 s n d st hf] at hmsg
          exact ⟨m, (Except.error.inj hmsg).symm, Or.inr (Or.inr (Or.inr ⟨0, hf⟩))⟩
        | none =>
          cases hc : s.store.projects.find? (fun p => p.id == i) with
          | none =>
            rw [updateProject_missing hf hc] at hmsg
            exact ⟨_, (Except.error.inj hmsg).symm, Or.inl rfl⟩
          | some p =>
            cases hf1 : faults 1 with
            | some m =>
              rw [updateProject_fault1 hf hc hf1] at hmsg
              exact ⟨m, (Except.error.inj hmsg).symm, Or.inr (Or.inr (Or.inr ⟨1, hf1⟩))⟩
            | none =>
              cases hn : s.store.projects.any
                  (fun q => q.id != i && q.name == orElse n p.name) with
              | true =>
                rw [updateProject_duplicate hf hc hf1 hn] at hmsg
                exact ⟨_, (Except.error.inj hmsg).symm, Or.inr (Or.inr (Or.inl rfl))⟩
              | false =>
                rw [updateProject_stored hf hc hf1 hn] at hmsg
                simp at hmsg
    · refine ⟨?_, fun _ _ h => by simp at h,
        fun _ hc => absurd hc (project_query_other s raw _),
        fun _ _ _ hc => absurd hc (project_query_other s raw _),
        fun _ _ _ hc => absurd hc (project_query_other s raw _), ?_⟩
      · intro raw' hraw
        cases hraw
        exact congrArg Prod.snd (updateProject_cast s faults raw n d st)
      · intro msg hmsg
        change (Mutation.updateProject s faults (some (.other raw)) n d st).2 = _ at hmsg
        rw [updateProject_cast] at hmsg
        exact ⟨_, (Except.error.inj hmsg).symm, Or.inr (Or.inl ⟨raw, rfl, rfl⟩)⟩

theorem mutation_error_message_witness :
    (RootQuery.client acme none (.objectId 7) = .ok none ∧
      (Mutation.deleteClient.resolve acme noFaults (.objectId 7)).2 =
        .error "Failed to delete client: Client not found") ∧
    (ClientSchema.required.accepts "" "b@x.com" "555-2" = false ∧
      (Mutation.addClient.resolve ClientSchema.required acme noFaults "" "b@x.com" "555-2").2 =
        .error ("Failed to add client: " ++ clientValidationMessage)) ∧
    (failAt 0 "store unreachable" 0 = some "store unreachable" ∧
      (Mutation.addClient.resolve ClientSchema.required acme (failAt 0 "store unreachable")
        "Bolt" "b@x.com" "555-2").2 = .error "Failed to add client: store unreachable") ∧
    (RootQuery.client acme none (.objectId 0) = .ok (some ⟨0, "Acme", "a@x.com", "555-1"⟩) ∧
      (Mutation.deleteClient.resolve acme (failAt 2 "store unreachable") (.objectId 0)).2 =
        .error "Failed to delete client: store unreachable") ∧
    (RootQuery.project acme none (.objectId 1) =
        .ok (some ⟨1, "Site Redesign", "desc", some "Not Started", 0⟩) ∧
      (Mutation.updateProject.resolve acme (failAt 1 "store unreachable") (.objectId 1)
        none none (Option.map ProjectStatusEnum.value (some ProjectStatusEnum.COMPLETED))).2 =
        .error "Failed to update project: store unreachable") ∧
    (Mutation.addProject.resolve acme noFaults "Site Redesign" "again"
        (addProjectStatus none) (.objectId 0)).2 =
      .error ("Failed to add project: " ++ duplicateKeyMessage) :=
  ⟨⟨by decide,
      (mutation_error_message ClientSchema.required acme noFaults).2.1 (.objectId 7)
        |>.2.2.1 rfl (by decide)⟩,
    ⟨by decide,
      ((mutation_error_message ClientSchema.required acme noFaults).1 "" "b@x.com" "555-2").1
        (by decide)⟩,
    ⟨by decide,
      ((mutation_error_message ClientSchema.required acme (failAt 0 "store unreachable")).1
        "Bolt" "b@x.com" "555-2").2.1 "store unreachable" (by decide) (by decide)⟩,
    ⟨by decide,
      ((mutation_error_message ClientSchema.required acme (failAt 2 "store unreachable")).2.1
        (.objectId 0)).2.2.2.2.1 ⟨0, "Acme", "a@x.com", "555-1"⟩ "store unreachable"
        (by decide) (by decide) (by decide) (by decide)⟩,
    ⟨by decide,
      ((mutation_error_message ClientSchema.required acme
        (failAt 1 "store unreachable")).2.2.2.2 (.objectId 1) none none
        (some .COMPLETED)).2.2.2.1 ⟨1, "Site Redesign", "desc", some "Not Started", 0⟩
        "store unreachable" (by decide) (by decide) (by decide)⟩,
    ((mutation_error_message ClientSchema.required acme noFaults).2.2.1 "Site Redesign"
      "again" none (.objectId 0)).2.2.2.2.1 ⟨0, "Acme", "a@x.com", "555-1"⟩ rfl (by decide)
      rfl ⟨⟨1, "Site Redesign", "desc", some "Not Started", 0⟩, by decide, rfl⟩⟩

end GraphQLCrud
